import Mathlib

/-!
Verification development for the SPICE netlist parser of
`PySpice/Spice/EBNFParser.py` (the semantic walker `SpiceModelWalker`, the
statement IR classes, and the `SpiceParser` resolution passes).

The grammar front-end (`SpiceGrammar.py`), the unit primitives and the
downstream netlist object model (`Netlist.py`, `BasicElement.py`) are external
to the analysed source; where a definition depends on them it is modelled from
the specification and marked as such in its doc comment.  Everything else is a
direct shallow embedding of the Python source: Python exceptions become an
explicit error type, mutation of the walker / IR objects becomes explicit
state passing, Python `dict` and `set` become insertion-ordered association
lists and duplicate-free lists.
-/

/-- Python exception kinds raised by the parser source, each carrying the
`str(e)` message.  `ParseError` is its own constructor: the source defines
`class ParseError(NameError)`, and the claims distinguish the concrete type
raised from the others. -/
inductive PyExc where
  | valueError (msg : String)
  | nameError (msg : String)
  | parseError (msg : String)
  | syntaxError (msg : String)
  | attributeError (msg : String)
  | unboundLocal (msg : String)
  | keyError (msg : String)
  | zeroDivisionError (msg : String)
  | indexError (msg : String)
  deriving DecidableEq, Repr

/-- `str(e)`: the message carried by the exception. -/
def PyExc.msg : PyExc → String
  | .valueError m | .nameError m | .parseError m | .syntaxError m
  | .attributeError m | .unboundLocal m | .keyError m
  | .zeroDivisionError m | .indexError m => m

/-- Whether the exception is (exactly) a `ParseError`. -/
def PyExc.isParseError : PyExc → Bool
  | .parseError _ => true
  | _ => false

/-- Walked semantic values flowing through the walker: Python ints, floats
(kept as exact decimal mantissa/exponent pairs, which is all the claims
consult), strings, and the tiny fragment of the expression AST the
controlled-source walkers synthesize (`V(p,n)`, `I(dev)` and products). -/
inductive Value where
  | int (n : Int)
  | dec (mantissa : Int) (exp10 : Int)
  | str (s : String)
  | vnode (p n : Option String)
  | idev (d : String)
  | mul (a b : Value)
  deriving DecidableEq, Repr

/- ### String containment (used to state "message contains ..." claims) -/

/-- `l` starts with `p`. -/
def listIsPre : List Char → List Char → Bool
  | [], _ => true
  | _ :: _, [] => false
  | p :: ps, c :: cs => p = c && listIsPre ps cs

/-- Some suffix of `l` starts with `p`. -/
def listHasSub (p : List Char) : List Char → Bool
  | [] => listIsPre p []
  | c :: cs => listIsPre p (c :: cs) || listHasSub p cs

/-- `s` contains `p` as a contiguous substring. -/
def strHasSub (s p : String) : Bool :=
  listHasSub p.toList s.toList

/- ### Python dict and set primitives -/

/-- Python `d[k] = v` on an insertion-ordered dict: replace in place if the
key exists, else append. -/
def dictSet {α : Type} (k : String) (v : α) : List (String × α) → List (String × α)
  | [] => [(k, v)]
  | (k', v') :: rest => if k' = k then (k, v) :: rest else (k', v') :: dictSet k v rest

/-- Python `d.get(k)` lookup. -/
def dictGet {α : Type} (k : String) : List (String × α) → Option α
  | [] => none
  | (k', v') :: rest => if k' = k then some v' else dictGet k rest

/-- Python `d.update(other)`: set every key of `other` in order. -/
def dictUpdate {α : Type} (d other : List (String × α)) : List (String × α) :=
  other.foldl (fun acc kv => dictSet kv.1 kv.2 acc) d

/-- Python `s.add(x)` on a set modelled as a duplicate-free list in insertion
order. -/
def setAdd (l : List String) (x : String) : List String :=
  if x ∈ l then l else l ++ [x]

/-- Python `s.update(xs)`. -/
def setUnion (l : List String) (xs : List String) : List String :=
  xs.foldl setAdd l

/-- Python set difference `s - t` (kept in the order of `s`). -/
def setDiff (l xs : List String) : List String :=
  l.filter (fun a => decide (a ∉ xs))

/-- Lowercase every element, as the resolver does with `available` sets. -/
def lowerChar (c : Char) : Char :=
  if 'A' ≤ c ∧ c ≤ 'Z' then Char.ofNat (c.toNat + 32) else c

/-- Python `str.lower()`.  The identifiers the parser lowercases are ASCII
(device, model and subcircuit names), so character-wise ASCII lowering
models it; unlike `String.toLower`, this definition reduces in the kernel. -/
def pyLower (s : String) : String := ⟨s.toList.map lowerChar⟩

def lowerList (l : List String) : List String :=
  l.map pyLower

/- ### Python number coercion (`SpiceModelWalker._to_number` on tokens) -/

/-- Digits of a Python decimal integer literal. -/
def digitsToNat : List Char → Option Nat
  | [] => none
  | l => l.foldl (fun acc c => match acc with
      | none => none
      | some n => if c.isDigit then some (n * 10 + (c.toNat - 48)) else none)
      (some 0)

/-- Python `int(s)` on a bare token: optional sign followed by digits.
(The whitespace/underscore tolerance of CPython is irrelevant for the
single-token arguments fed to `_to_number`.) -/
def pyInt : List Char → Option Int
  | '+' :: rest => (digitsToNat rest).map Int.ofNat
  | '-' :: rest => (digitsToNat rest).map (fun n => -(Int.ofNat n))
  | l => (digitsToNat l).map Int.ofNat

/-- Split a char list at the first `e`/`E`, for float exponents. -/
def splitExp : List Char → (List Char × Option (List Char))
  | [] => ([], none)
  | c :: cs =>
    if c = 'e' ∨ c = 'E' then ([], some cs)
    else
      let r := splitExp cs
      (c :: r.1, r.2)

/-- Parse the mantissa `digits [. digits]` of a Python float literal,
returning the integer formed by all digits together with the number of
fractional digits.  At least one digit must be present. -/
def pyMantissa (l : List Char) : Option (Nat × Nat) :=
  match l.span (fun c => c.isDigit) with
  | (intPart, rest) =>
    match rest with
    | [] => (digitsToNat intPart).map (fun n => (n, 0))
    | '.' :: fracPart =>
      if fracPart.all (fun c => c.isDigit) then
        match intPart, fracPart with
        | [], [] => none
        | _, _ =>
          let all := intPart ++ fracPart
          (digitsToNat all).map (fun n => (n, fracPart.length))
      else none
    | _ => none

/-- Python `float(s)` on a bare token, as an exact decimal
`(mantissa, exponent)` pair: optional sign, digits with optional fraction,
optional `e`-exponent.  (`inf`/`nan` spellings never occur in the SPICE
tokens considered.) -/
def pyFloat (l : List Char) : Option (Int × Int) :=
  let (signVal, body) : Int × List Char :=
    match l with
    | '+' :: rest => (1, rest)
    | '-' :: rest => (-1, rest)
    | _ => (1, l)
  let (mant, expo) := splitExp body
  match pyMantissa mant with
  | none => none
  | some (m, fracLen) =>
    match expo with
    | none => some (signVal * Int.ofNat m, -(Int.ofNat fracLen))
    | some echars =>
      match pyInt echars with
      | none => none
      | some e => some (signVal * Int.ofNat m, e - Int.ofNat fracLen)

/-- `SpiceModelWalker._to_number` on a string token: `int(value)` first,
falling back to `float(value)`, whose `ValueError` propagates.  (The
`UnitValue` branch of the source applies only to already-walked unit values,
never to the raw trailing tokens the claims are about.) -/
def toNumber (s : String) : Except PyExc Value :=
  match pyInt s.toList with
  | some n => .ok (.int n)
  | none =>
    match pyFloat s.toList with
    | some (m, e) => .ok (.dec m e)
    | none => .error (.valueError ("could not convert string to float: " ++ s))

/- ### The statement IR (`Statement` subclasses of the source) -/

/-- The device class (`self._statement`) an `ElementStatement` instantiates at
build time — the `BasicElement` constructor passed by the walker. -/
inductive DeviceClass where
  | BehavioralSource
  | BipolarJunctionTransistor
  | Capacitor
  | CoupledInductor
  | CurrentSource
  | Diode
  | Inductor
  | JunctionFieldEffectTransistor
  | Mosfet
  | Resistor
  | SubCircuitElement
  | VoltageControlledSwitch
  | VoltageSource
  deriving DecidableEq, Repr

/-- `ElementStatement`: `_prefix = name[0]` (field `pfx`), `_name = name[1:]`
(field `ename`), the node tuple and the keyword parameters. -/
structure ElementStatement where
  statement : DeviceClass
  pfx : String
  ename : String
  nodes : List String
  params : List (String × Value)
  deriving DecidableEq, Repr

/-- `ElementStatement.__init__`: split the instance name into its leading
device letter and the remainder.  (The grammar never yields an empty name.) -/
def ElementStatement.ofName (statement : DeviceClass) (name : String)
    (nodes : List String) (params : List (String × Value)) : ElementStatement :=
  { statement := statement, pfx := ⟨name.toList.take 1⟩, ename := ⟨name.toList.drop 1⟩,
    nodes := nodes, params := params }

/-- `ModelStatement`: a `.model` record. -/
structure ModelStatementIR where
  name : String
  modelType : String
  params : List (String × Value)
  deriving DecidableEq, Repr

/-- `DataStatement`: a `.data` table, column name to ordered value list. -/
structure DataStatementIR where
  table : String
  parameters : List (String × List Value)
  deriving DecidableEq, Repr

/-- `ParamStatement`: one `.param` line's name-to-expression map. -/
structure ParamStatementIR where
  params : List (String × Value)
  deriving DecidableEq, Repr

/-- Entries of the `_statements` list.  (Of the two kinds the walker appends,
`IncludeStatement` re-enters the parser on another file and is outside this
development; all claims concern element statements.) -/
inductive Stmt where
  | elem (e : ElementStatement)
  deriving DecidableEq, Repr

/-- `SubCircuitStatement`: name, ports, default parameters, and the scope's
statement / subcircuit / model / param lists together with the
`_required_subcircuits` / `_required_models` sets. -/
inductive SubIR where
  | mk (name : String) (nodes : List String) (defparams : List (String × Value))
       (statements : List Stmt) (subcircuits : List SubIR)
       (models : List ModelStatementIR) (params : List ParamStatementIR)
       (reqSub : List String) (reqMod : List String)

def SubIR.name : SubIR → String
  | .mk n _ _ _ _ _ _ _ _ => n

def SubIR.nodes : SubIR → List String
  | .mk _ nd _ _ _ _ _ _ _ => nd

def SubIR.defparams : SubIR → List (String × Value)
  | .mk _ _ dp _ _ _ _ _ _ => dp

def SubIR.statements : SubIR → List Stmt
  | .mk _ _ _ st _ _ _ _ _ => st

def SubIR.subcircuits : SubIR → List SubIR
  | .mk _ _ _ _ sc _ _ _ _ => sc

def SubIR.models : SubIR → List ModelStatementIR
  | .mk _ _ _ _ _ m _ _ _ => m

def SubIR.params : SubIR → List ParamStatementIR
  | .mk _ _ _ _ _ _ p _ _ => p

def SubIR.reqSub : SubIR → List String
  | .mk _ _ _ _ _ _ _ rs _ => rs

def SubIR.reqMod : SubIR → List String
  | .mk _ _ _ _ _ _ _ _ rm => rm

/-- `SubCircuitStatement.append`. -/
def SubIR.appendStmt : SubIR → Stmt → SubIR
  | .mk n nd dp st sc m p rs rm, s => .mk n nd dp (st ++ [s]) sc m p rs rm

/-- `SubCircuitStatement.appendModel`. -/
def SubIR.appendModel : SubIR → ModelStatementIR → SubIR
  | .mk n nd dp st sc m p rs rm, x => .mk n nd dp st sc (m ++ [x]) p rs rm

/-- `SubCircuitStatement.appendParam`. -/
def SubIR.appendParam : SubIR → ParamStatementIR → SubIR
  | .mk n nd dp st sc m p rs rm, x => .mk n nd dp st sc m (p ++ [x]) rs rm

/-- `SubCircuitStatement.appendSubCircuit`. -/
def SubIR.appendSubCircuit : SubIR → SubIR → SubIR
  | .mk n nd dp st sc m p rs rm, x => .mk n nd dp st (sc ++ [x]) m p rs rm

/-- `self._required_subcircuits.add(x)`. -/
def SubIR.addReqSub : SubIR → String → SubIR
  | .mk n nd dp st sc m p rs rm, x => .mk n nd dp st sc m p (setAdd rs x) rm

/-- `self._required_models.add(x)`. -/
def SubIR.addReqMod : SubIR → String → SubIR
  | .mk n nd dp st sc m p rs rm, x => .mk n nd dp st sc m p rs (setAdd rm x)

/-- A fresh `SubCircuitStatement(name, *nodes, **params)`. -/
def SubIR.fresh (name : String) (nodes : List String)
    (defparams : List (String × Value)) : SubIR :=
  .mk name nodes defparams [] [] [] [] [] []

/-- `LibraryStatement`: a named `.lib entry … .endl` block scope.  (It has no
`_required_models` / `_required_subcircuits` attributes — accessing them on a
library scope is an `AttributeError`, which the walker state helpers below
reproduce.) -/
structure LibIR where
  entry : String
  statements : List Stmt
  subcircuits : List SubIR
  models : List ModelStatementIR
  params : List ParamStatementIR

/-- `LibraryStatement.append`. -/
def LibIR.appendStmt (l : LibIR) (s : Stmt) : LibIR :=
  { l with statements := l.statements ++ [s] }

def LibIR.appendModel (l : LibIR) (x : ModelStatementIR) : LibIR :=
  { l with models := l.models ++ [x] }

def LibIR.appendParam (l : LibIR) (x : ParamStatementIR) : LibIR :=
  { l with params := l.params ++ [x] }

def LibIR.appendSubCircuit (l : LibIR) (x : SubIR) : LibIR :=
  { l with subcircuits := l.subcircuits ++ [x] }

/-- `CircuitStatement`: the root of the IR, owning libraries, models,
subcircuits, statements, params, library calls and the `.data` tables. -/
structure CircuitIR where
  path : String
  title : String
  libraryCalls : List (String × String)
  statements : List Stmt
  libraries : List (String × LibIR)
  subcircuits : List SubIR
  models : List ModelStatementIR
  reqSub : List String
  reqMod : List String
  params : List ParamStatementIR
  data : List (String × DataStatementIR)

/-- `CircuitStatement.__init__(title, path)` with every collection empty. -/
def CircuitIR.init (title path : String) : CircuitIR :=
  { path := path, title := title, libraryCalls := [], statements := [],
    libraries := [], subcircuits := [], models := [], reqSub := [],
    reqMod := [], params := [], data := [] }

/-- `CircuitStatement.name` is the title. -/
def CircuitIR.name (c : CircuitIR) : String := c.title

def CircuitIR.appendStmt (c : CircuitIR) (s : Stmt) : CircuitIR :=
  { c with statements := c.statements ++ [s] }

/-- `CircuitStatement.appendData`: `self._data[statement.table] = statement`. -/
def CircuitIR.appendData (c : CircuitIR) (d : DataStatementIR) : CircuitIR :=
  { c with data := dictSet d.table d c.data }

/-- `CircuitStatement.appendLibrary`: `self._libraries[statement.entry] = statement`. -/
def CircuitIR.appendLibrary (c : CircuitIR) (l : LibIR) : CircuitIR :=
  { c with libraries := dictSet l.entry l c.libraries }

def CircuitIR.appendLibraryCall (c : CircuitIR) (x : String × String) : CircuitIR :=
  { c with libraryCalls := c.libraryCalls ++ [x] }

def CircuitIR.appendModel (c : CircuitIR) (x : ModelStatementIR) : CircuitIR :=
  { c with models := c.models ++ [x] }

def CircuitIR.appendParam (c : CircuitIR) (x : ParamStatementIR) : CircuitIR :=
  { c with params := c.params ++ [x] }

def CircuitIR.appendSubCircuit (c : CircuitIR) (x : SubIR) : CircuitIR :=
  { c with subcircuits := c.subcircuits ++ [x] }

def CircuitIR.addReqSub (c : CircuitIR) (x : String) : CircuitIR :=
  { c with reqSub := setAdd c.reqSub x }

def CircuitIR.addReqMod (c : CircuitIR) (x : String) : CircuitIR :=
  { c with reqMod := setAdd c.reqMod x }

/- ### Walker state (`SpiceModelWalker` scope discipline) -/

/-- The walker's current scope `self._present`: the root circuit itself, an
open `.lib` block, or an open `.subckt` definition.  The parent stack
`self._context` is the Lean recursion stack of `walkLines` below: the walker
pushes on block entry and pops on block exit, so the stack is the nesting of
in-flight block walks. -/
inductive Present where
  | top
  | lib (l : LibIR)
  | sub (s : SubIR)

/-- The mutable walker state: the root circuit under construction and the
current scope. -/
structure WState where
  root : CircuitIR
  present : Present

/-- `self._present.append(statement)`. -/
def WState.appendStmt (s : WState) (st : Stmt) : WState :=
  match s.present with
  | .top => { s with root := s.root.appendStmt st }
  | .lib l => { s with present := .lib (l.appendStmt st) }
  | .sub c => { s with present := .sub (c.appendStmt st) }

/-- `self._present.appendModel(statement)`. -/
def WState.appendModel (s : WState) (x : ModelStatementIR) : WState :=
  match s.present with
  | .top => { s with root := s.root.appendModel x }
  | .lib l => { s with present := .lib (l.appendModel x) }
  | .sub c => { s with present := .sub (c.appendModel x) }

/-- `self._present.appendParam(statement)`. -/
def WState.appendParam (s : WState) (x : ParamStatementIR) : WState :=
  match s.present with
  | .top => { s with root := s.root.appendParam x }
  | .lib l => { s with present := .lib (l.appendParam x) }
  | .sub c => { s with present := .sub (c.appendParam x) }

/-- `self._present.appendSubCircuit(statement)`. -/
def WState.appendSubCircuit (s : WState) (x : SubIR) : WState :=
  match s.present with
  | .top => { s with root := s.root.appendSubCircuit x }
  | .lib l => { s with present := .lib (l.appendSubCircuit x) }
  | .sub c => { s with present := .sub (c.appendSubCircuit x) }

/-- `self._present._required_models.add(x)`.  A `LibraryStatement` has no
`_required_models` attribute, so inside a `.lib` block this access raises
`AttributeError`. -/
def WState.addReqMod (s : WState) (x : String) : Except PyExc WState :=
  match s.present with
  | .top => .ok { s with root := s.root.addReqMod x }
  | .lib _ => .error (.attributeError "LibraryStatement object has no attribute _required_models")
  | .sub c => .ok { s with present := .sub (c.addReqMod x) }

/-- `self._present._required_subcircuits.add(x)`; `AttributeError` on a
library scope as for models. -/
def WState.addReqSub (s : WState) (x : String) : Except PyExc WState :=
  match s.present with
  | .top => .ok { s with root := s.root.addReqSub x }
  | .lib _ => .error (.attributeError "LibraryStatement object has no attribute _required_subcircuits")
  | .sub c => .ok { s with present := .sub (c.addReqSub x) }

/-- `self._root.appendData(statement)` — always the root, whatever the
current scope. -/
def WState.appendDataRoot (s : WState) (d : DataStatementIR) : WState :=
  { s with root := s.root.appendData d }

/-- `self._present.appendLibrary(statement)` on the scope enclosing a closed
`.lib` block; only `CircuitStatement` defines `appendLibrary`, so a library
block nested in a subcircuit or library raises `AttributeError`. -/
def WState.appendLibrary (s : WState) (l : LibIR) : Except PyExc WState :=
  match s.present with
  | .top => .ok { s with root := s.root.appendLibrary l }
  | .lib _ => .error (.attributeError "LibraryStatement object has no attribute appendLibrary")
  | .sub _ => .error (.attributeError "SubCircuitStatement object has no attribute appendLibrary")

/-- `self._present.appendLibraryCall(statement)`; only the root circuit
defines it. -/
def WState.appendLibraryCall (s : WState) (x : String × String) : Except PyExc WState :=
  match s.present with
  | .top => .ok { s with root := s.root.appendLibraryCall x }
  | .lib _ => .error (.attributeError "LibraryStatement object has no attribute appendLibraryCall")
  | .sub _ => .error (.attributeError "SubCircuitStatement object has no attribute appendLibraryCall")

/- ### CST node shapes (modelled from the spec's grammar description) -/

/-- `walk_Device`: a controlled-source device letter E/F/G/H is rewritten to
a `B` behavioral-source name; every other name passes through. -/
def walkDevice (s : String) : String :=
  match s.toList with
  | c :: _ => if c = 'E' ∨ c = 'F' ∨ c = 'G' ∨ c = 'H' then "B" ++ s else s
  | [] => s

/-- Modelled from the spec: the CST node of a BJT (`Q`) element line as the
grammar front-end (not under `src/`) delivers it to `walk_BJT` — explicit
collector/base/emitter nodes, an optional grammar-level substrate node, the
list of trailing positional tokens, the walked value of the optional `area=`
keyword, and the optional extra keyword parameters. -/
structure BJTNode where
  dev : String
  args : List String
  collector : String
  base : String
  emitter : String
  substrate : Option String
  area : Option Value
  parameters : Option (List (String × Value))

/-- Modelled from the spec: the CST node of a switch (`S`) element line with
its optional model, initial state and optional control-node pair. -/
structure SwitchNode where
  dev : String
  model : Option String
  initialState : Option String
  positive : String
  negative : String
  controlP : Option String
  controlN : Option String

/-- Modelled from the spec: the CST node of a MOSFET (`M`) element line.  The
bare and bracketed keyword forms of the source's `walk_MOSFET` parameter
handling are delivered here as one collapsed keyword list, per the spec. -/
structure MOSFETNode where
  dev : String
  model : Option String
  param : Option (List (String × Value))
  drain : String
  gate : String
  source : String
  bulk : String

/-- Modelled from the spec: the CST node shared by the voltage-controlled
sources (`E` = VCVS, `G` = VCCS): an optional walked controller expression
(POLY/TABLE/value), optional control node pair, and the optional
gain/transconductance value. -/
structure VCNode where
  dev : String
  controller : Option Value
  controlPositive : Option String
  controlNegative : Option String
  gain : Option Value
  positive : String
  negative : String

/-- Modelled from the spec: the CST node shared by the current-controlled
sources (`F` = CCCS, `H` = CCVS): an optional walked controller expression
and the optional gain/transresistance value. -/
structure CCNode where
  dev : String
  controller : Option Value
  gain : Option Value
  positive : String
  negative : String

/-- Modelled from the spec: the CST node of a subcircuit instance (`X`) line:
the walked token list (pins then subcircuit name), whether a `params:`
marker was present, and the walked parameters. -/
structure XNode where
  dev : String
  nodeTokens : List String
  paramsFlag : Bool
  parameters : Option (List (String × Value))

/-- Modelled from the spec: the CST node of a `.data` directive. -/
structure DataNode where
  table : String
  names : List String
  values : List Value
  line : Nat

/-- Modelled from the spec: the CST node of a `.model` directive. -/
structure ModelNode where
  name : String
  mtype : String
  parameters : Option (List (String × Value))

/-- The `.subckt` / `.ends` name field: the closing name is optional, and
when present the CST carries the pair. -/
inductive BlockName where
  | single (a : String)
  | pair (a b : String)

/- ### Per-device walkers (`SpiceModelWalker.walk_*`) -/

/-- `walk_BJT`.  The trailing positional arguments are disambiguated by
their count; a two- or three-argument form first tries `_to_number` on the
last one (its `ValueError` is swallowed).  When the `area=` keyword was
present, the positional branches that would bind `model_name` are skipped:
with two trailing arguments the final `kwargs["model"] = model_name` then
reads an unbound local, and with three the incompatible-device `ValueError`
is raised; with one trailing argument the walked keyword area is never
stored into `kwargs`. -/
def walkBJT (s : WState) (node : BJTNode) : Except PyExc WState := do
  let device := walkDevice node.dev
  let lArgs := node.args.length
  let nodes0 := [node.collector, node.base, node.emitter] ++
    (match node.substrate with | some sb => [sb] | none => [])
  let (nodes, kwargs, modelName) ←
    (if lArgs = 0 then
      .error (.valueError ("The device " ++ node.dev ++ " has no model"))
    else if lArgs = 1 then
      match node.args with
      | a0 :: _ => .ok (nodes0, ([] : List (String × Value)), a0)
      | [] => .error (.valueError "unreachable: length 1")
    else if lArgs = 2 then
      match node.area with
      | some _ =>
        -- both `if area is None` branches skipped: `model_name` unbound
        .error (.unboundLocal "local variable model_name referenced before assignment")
      | none =>
        match node.args with
        | [a0, a1] =>
          match toNumber a1 with
          | .ok v => .ok (nodes0, [("area", v)], a0)
          | .error _ => .ok (nodes0 ++ [a0], [], a1)
        | _ => .error (.valueError "unreachable: length 2")
    else if lArgs = 3 then
      match node.args with
      | [a0, a1, a2] =>
        (match node.area with
        | some _ =>
          -- `area is not None` falls into the incompatible-device branch
          .error (.valueError ("Present device not compatible with BJT definition: " ++ node.dev))
        | none =>
          match toNumber a2 with
          | .ok _ =>
            -- positional area parsed, so `area is None` fails below: raise
            .error (.valueError ("Present device not compatible with BJT definition: " ++ node.dev))
          | .error _ =>
            match node.substrate with
            | none => .ok (nodes0 ++ [a0, a1], ([] : List (String × Value)), a2)
            | some _ => .error (.valueError ("Present device not compatible with BJT definition: " ++ node.dev)))
      | _ => .error (.valueError "unreachable: length 3")
    else
      .error (.valueError ("Present device not compatible with BJT definition: " ++ node.dev)))
  let kwargs := match node.parameters with
    | some ps => dictUpdate kwargs ps
    | none => kwargs
  let kwargs := dictSet "model" (.str modelName) kwargs
  let s ← s.addReqMod (pyLower modelName)
  .ok (s.appendStmt (.elem (ElementStatement.ofName .BipolarJunctionTransistor device nodes kwargs)))

/-- `walk_Switch`.  Both control nodes, or neither: a positive control node
alone raises the `ValueError`, and a negative control node alone leaves the
`nodes` local unbound (an `UnboundLocalError` at the element construction). -/
def walkSwitch (s : WState) (node : SwitchNode) : Except PyExc WState := do
  let device := walkDevice node.dev
  let kwargs : List (String × Value) := []
  let (s, kwargs) ←
    (match node.model with
    | some m => do
      let s' ← s.addReqMod (pyLower m)
      .ok (s', dictSet "model" (.str m) kwargs)
    | none => .ok (s, kwargs))
  let kwargs := match node.initialState with
    | some ist => dictSet "initial_state" (.str ist) kwargs
    | none => kwargs
  let nodes ←
    (match node.controlP, node.controlN with
    | some cp, some cn => .ok [node.positive, node.negative, cp, cn]
    | some _, none => .error (.valueError "Only one control node defined")
    | none, none => .ok [node.positive, node.negative]
    | none, some _ =>
      .error (.unboundLocal "local variable nodes referenced before assignment"))
  .ok (s.appendStmt (.elem (ElementStatement.ofName .VoltageControlledSwitch device nodes kwargs)))

/-- `walk_MOSFET`: fixed drain/gate/source/bulk nodes, mandatory model. -/
def walkMOSFET (s : WState) (node : MOSFETNode) : Except PyExc WState := do
  let device := walkDevice node.dev
  match node.model with
  | none => .error (.valueError ("The device " ++ node.dev ++ " has no model"))
  | some m => do
    let kwargs := dictSet "model" (.str m) ([] : List (String × Value))
    let s ← s.addReqMod (pyLower m)
    let kwargs := match node.param with
      | some ps => dictUpdate kwargs ps
      | none => kwargs
    let nodes := [node.drain, node.gate, node.source, node.bulk]
    .ok (s.appendStmt (.elem (ElementStatement.ofName .Mosfet device nodes kwargs)))

/-- `walk_VoltageControlledVoltageSource` (`E`): with a controller the `V`
keyword takes it verbatim; otherwise `V = V(cp, cn) * gain`.  When all of
controller, control nodes and gain are missing the device is rejected; a
missing gain with control nodes present walks the absent CST attribute,
which the node walker rejects as an unwalkable node. -/
def walkVCVS (s : WState) (node : VCNode) : Except PyExc WState := do
  let device := walkDevice node.dev
  if node.controller = none ∧ node.controlPositive = none ∧
      node.controlNegative = none ∧ node.gain = none then
    .error (.valueError ("Device " ++ node.dev ++ " not properly defined"))
  else do
    let kwargs : List (String × Value) ←
      (match node.controller with
      | some c => .ok [("V", c)]
      | none =>
        match node.gain with
        | some v => .ok [("V", .mul (.vnode node.controlPositive node.controlNegative) v)]
        | none => .error (.parseError "No walker defined for the node: None"))
    let nodes := [node.positive, node.negative]
    .ok (s.appendStmt (.elem (ElementStatement.ofName .BehavioralSource device nodes kwargs)))

/-- `walk_VoltageControlledCurrentSource` (`G`): as the VCVS but the
synthesized expression lands in the `I` keyword with the transconductance. -/
def walkVCCS (s : WState) (node : VCNode) : Except PyExc WState := do
  let device := walkDevice node.dev
  if node.controller = none ∧ node.controlPositive = none ∧
      node.controlNegative = none ∧ node.gain = none then
    .error (.valueError ("Device " ++ node.dev ++ " not properly defined"))
  else do
    let kwargs : List (String × Value) ←
      (match node.controller with
      | some c => .ok [("I", c)]
      | none =>
        match node.gain with
        | some v => .ok [("I", .mul (.vnode node.controlPositive node.controlNegative) v)]
        | none => .error (.parseError "No walker defined for the node: None"))
    let nodes := [node.positive, node.negative]
    .ok (s.appendStmt (.elem (ElementStatement.ofName .BehavioralSource device nodes kwargs)))

/-- `walk_CurrentControlledCurrentSource` (`F`): `I` takes the controller or
`I(device) * gain`.  (The source's emptiness guard also tests `node.dev is
None`, which cannot hold once the device name has been walked, so the guard
never fires; a missing gain is an unwalkable `None` node as for the VCVS.) -/
def walkCCCS (s : WState) (node : CCNode) : Except PyExc WState := do
  let device := walkDevice node.dev
  let kwargs : List (String × Value) ←
    (match node.controller with
    | some c => .ok [("I", c)]
    | none =>
      match node.gain with
      | some v => .ok [("I", .mul (.idev device) v)]
      | none => .error (.parseError "No walker defined for the node: None"))
  let nodes := [node.positive, node.negative]
  .ok (s.appendStmt (.elem (ElementStatement.ofName .BehavioralSource device nodes kwargs)))

/-- `walk_CurrentControlledVoltageSource` (`H`): `V` takes the controller or
`I(device) * transresistance`. -/
def walkCCVS (s : WState) (node : CCNode) : Except PyExc WState := do
  let device := walkDevice node.dev
  let kwargs : List (String × Value) ←
    (match node.controller with
    | some c => .ok [("V", c)]
    | none =>
      match node.gain with
      | some v => .ok [("V", .mul (.idev device) v)]
      | none => .error (.parseError "No walker defined for the node: None"))
  let nodes := [node.positive, node.negative]
  .ok (s.appendStmt (.elem (ElementStatement.ofName .BehavioralSource device nodes kwargs)))

/-- `walk_Subcircuit` (an `X` instance line): the trailing token (second to
last under a `params:` marker) is the subcircuit name, the preceding tokens
are pins; the lowercased name joins `_required_subcircuits`. -/
def walkSubInst (s : WState) (node : XNode) : Except PyExc WState := do
  let (subName, pins) ←
    (if node.paramsFlag then
      match node.nodeTokens.reverse with
      | _last :: nm :: _ => .ok (nm, node.nodeTokens.take (node.nodeTokens.length - 2))
      | _ => .error (.indexError "list index out of range")
    else
      match node.nodeTokens.reverse with
      | nm :: _ => .ok (nm, node.nodeTokens.take (node.nodeTokens.length - 1))
      | _ => .error (.indexError "list index out of range"))
  let kwargs := match node.parameters with
    | some ps => dictUpdate [] ps
    | none => []
  let s ← s.addReqSub (pyLower subName)
  .ok (s.appendStmt (.elem
    (ElementStatement.ofName .SubCircuitElement node.dev (subName :: pins) kwargs)))

/-- One column of a `.data` table: Python `values[idx::k]`. -/
def dataColumn (values : List Value) (k idx : Nat) : List Value :=
  (values.enum.filter (fun p => decide (p.1 % k = idx))).map Prod.snd

/-- The `DataStatement` a `.data` node produces: each column name paired
with its strided value list. -/
def dataStatementOf (node : DataNode) : DataStatementIR :=
  { table := node.table,
    parameters := node.names.enum.map
      (fun p => (p.2, dataColumn node.values node.names.length p.1)) }

/-- `walk_DataCmd`: the value count must divide evenly among the column
names (with no names at all, Python's `%` raises `ZeroDivisionError`); the
table is recorded on the root circuit, keyed by its name. -/
def walkDataCmd (s : WState) (node : DataNode) : Except PyExc WState :=
  if node.names.length = 0 then
    .error (.zeroDivisionError "integer division or modulo by zero")
  else if node.values.length % node.names.length ≠ 0 then
    .error (.valueError ("The number of elements per parameter do not match (line: " ++
      toString node.line ++ ")"))
  else
    .ok (s.appendDataRoot (dataStatementOf node))

/-- `walk_ModelCmd`. -/
def walkModelCmd (s : WState) (node : ModelNode) : WState :=
  s.appendModel { name := node.name, modelType := node.mtype,
                  params := node.parameters.getD [] }

/-- `walk_ParamCmd`. -/
def walkParamCmd (s : WState) (parameters : Option (List (String × Value))) : WState :=
  s.appendParam { params := parameters.getD [] }

/- ### Lines and the scope-stack walk -/

/-- Modelled from the spec: one logical netlist line as a CST node, covering
the productions exercised by the claims.  `.subckt` and `.lib` blocks carry
their body lines as children (the grammar delivers a block as one node whose
`lines` the walker traverses between pushing and popping the scope). -/
inductive Line where
  | bjt (n : BJTNode)
  | switch (n : SwitchNode)
  | mosfet (n : MOSFETNode)
  | vcvs (n : VCNode)
  | vccs (n : VCNode)
  | cccs (n : CCNode)
  | ccvs (n : CCNode)
  | subinst (n : XNode)
  | dataCmd (n : DataNode)
  | modelCmd (n : ModelNode)
  | paramCmd (parameters : Option (List (String × Value)))
  | subcktCmd (name : BlockName) (nodes : Option (List String))
      (parameters : Option (List (String × Value))) (lines : List Line)
  | libBlock (entries : BlockName) (lines : List Line)

mutual

/-- `SpiceModelWalker` dispatch on one line.  `walk_SubcktCmd` /
`walk_LibBlock` check the begin/end name pair, push the fresh scope, walk
the body, then append the completed definition to the enclosing scope. -/
def walkLine (s : WState) : Line → Except PyExc WState
  | .bjt n => walkBJT s n
  | .switch n => walkSwitch s n
  | .mosfet n => walkMOSFET s n
  | .vcvs n => walkVCVS s n
  | .vccs n => walkVCCS s n
  | .cccs n => walkCCCS s n
  | .ccvs n => walkCCVS s n
  | .subinst n => walkSubInst s n
  | .dataCmd n => walkDataCmd s n
  | .modelCmd n => .ok (walkModelCmd s n)
  | .paramCmd ps => .ok (walkParamCmd s ps)
  | .subcktCmd name nodes parameters lines => do
    let nm ←
      (match name with
      | .pair a b =>
        if a ≠ b then
          Except.error (.nameError ("Begin and end library entries differ: " ++ a ++ " != " ++ b))
        else Except.ok a
      | .single a => Except.ok a)
    let subckt := SubIR.fresh nm (nodes.getD []) (parameters.getD [])
    let s2 ← walkLines { root := s.root, present := .sub subckt } lines
    match s2.present with
    | .sub done => .ok (WState.appendSubCircuit { root := s2.root, present := s.present } done)
    | _ => .error (.parseError "internal: scope stack mismatch")
  | .libBlock entries lines => do
    let nm ←
      (match entries with
      | .pair a b =>
        if a ≠ b then
          Except.error (.nameError ("Begin and end library entries differ: " ++ a ++ " != " ++ b))
        else Except.ok a
      | .single a => Except.ok a)
    let library : LibIR := { entry := nm, statements := [], subcircuits := [],
                             models := [], params := [] }
    let s2 ← walkLines { root := s.root, present := .lib library } lines
    match s2.present with
    | .lib done => WState.appendLibrary { root := s2.root, present := s.present } done
    | _ => .error (.parseError "internal: scope stack mismatch")

/-- `walk_Lines`: the lines of a scope in source order. -/
def walkLines (s : WState) : List Line → Except PyExc WState
  | [] => .ok s
  | l :: rest => do
    let s' ← walkLine s l
    walkLines s' rest

end

/-- The parsed model handed from the grammar to the walker: title plus the
line nodes. -/
structure CST where
  title : String
  lines : List Line

/-- `walk_Circuit`: create the root `CircuitStatement`, walk every line, and
fail with the `ParseError("Not closed hierarchy")` if the context stack is
non-empty at the end.  In this embedding the context stack is the `walkLines`
recursion, which is balanced by construction, so the check cannot fire; it is
kept to mirror the source. -/
def walkModel (path : String) (cst : CST) : Except PyExc CircuitIR := do
  let s ← walkLines { root := CircuitIR.init cst.title path, present := .top } cst.lines
  match s.present with
  | .top => .ok s.root
  | _ => .error (.parseError ("Not closed hierarchy: " ++ path))

/- ### `SpiceParser._check_models` -/

mutual

/-- `SpiceParser._check_models` on a subcircuit scope: lowercase the inherited
set, add this scope's model names, recurse into the nested subcircuits first,
then require every `_required_models` entry to be available. -/
def checkModelsSub (avail : List String) : SubIR → Except PyExc Unit
  | .mk nm _ _ _ subckts models _ _ reqMod => do
    let pAvail := setUnion (lowerList avail) (models.map (fun m => pyLower m.name))
    checkModelsList pAvail subckts
    match reqMod.find? (fun r => decide (r ∉ pAvail)) with
    | some r => .error (.valueError ("Model (" ++ r ++ ") not available in (" ++ nm ++ ")"))
    | none => .ok ()

def checkModelsList (avail : List String) : List SubIR → Except PyExc Unit
  | [] => .ok ()
  | c :: cs => do
    checkModelsSub avail c
    checkModelsList avail cs

end

/-- `SpiceParser._check_models` at the root (default empty inherited set). -/
def checkModelsRoot (c : CircuitIR) : Except PyExc Unit := do
  let pAvail := setUnion [] (c.models.map (fun m => pyLower m.name))
  checkModelsList pAvail c.subcircuits
  match c.reqMod.find? (fun r => decide (r ∉ pAvail)) with
  | some r => .error (.valueError ("Model (" ++ r ++ ") not available in (" ++ c.name ++ ")"))
  | none => .ok ()

/- ### `SpiceParser._sort_subcircuits` -/

/-- A pending item of the dependency fixpoint: a (recursively sorted)
subcircuit together with its unresolved dependency set. -/
abbrev SortItem := SubIR × List String

/-- Stable insertion for the `sorted(..., key=len(deps))` ordering: an
element is placed after every earlier element of smaller-or-equal key. -/
def insByLen (x : SortItem) : List SortItem → List SortItem
  | [] => [x]
  | y :: ys => if x.2.length ≤ y.2.length then x :: y :: ys else y :: insByLen x ys

/-- Python's stable `sorted(dependencies.items(), key=lambda item: len(item[1]))`. -/
def sortByDepLen : List SortItem → List SortItem
  | [] => []
  | x :: xs => insByLen x (sortByDepLen xs)

/-- One `for item in items` scan of the fixpoint loop: emit (in scan order)
every item all of whose dependencies are among the already emitted names,
appending its subcircuit to `acc` and its lowercased name to `names`; keep
the rest in order.  Returns the extended names, the extended emission list
and the kept items. -/
def passOnce (names : List String) (acc : List SortItem) :
    List SortItem → (List String × List SortItem × List SortItem)
  | [] => (names, acc, [])
  | it :: rest =>
    if it.2.all (fun d => decide (d ∈ names)) then
      passOnce (names ++ [pyLower it.1.name]) (acc ++ [it]) rest
    else
      let r := passOnce names acc rest
      (r.1, r.2.1, it :: r.2.2)

/-- The `while 0 < len(items) < previous` loop: repeat scans while items
remain and the previous scan made progress.  `fuel = length + 1` bounds the
number of productive scans, exactly as the loop's progress condition does. -/
def runPasses : Nat → List String → List SortItem → List SortItem →
    (List String × List SortItem × List SortItem)
  | 0, names, acc, items => (names, acc, items)
  | fuel + 1, names, acc, items =>
    if items.isEmpty then (names, acc, items)
    else
      let r := passOnce names acc items
      if r.2.2.length = items.length then r
      else runPasses fuel r.1 r.2.1 r.2.2

/-- Rendering of the leftover items in the `Crossed dependencies` message. -/
def renderItems (items : List SortItem) : String :=
  String.intercalate ", " (items.map (fun it => it.1.name))

/-- The per-scope core of `_sort_subcircuits`: stable-sort the dependency
items by dependency count, run the fixpoint loop, and either return the
emitted subcircuits in order or fail with the `Crossed dependencies`
`ValueError`. -/
def resolveScope (pairs : List SortItem) : Except PyExc (List SubIR) :=
  let items := sortByDepLen pairs
  let r := runPasses (items.length + 1) [] [] items
  if r.2.2.isEmpty then .ok (r.2.1.map Prod.fst)
  else .error (.valueError ("Crossed dependencies (" ++ renderItems r.2.2 ++ ")"))

mutual

/-- `SpiceParser._sort_subcircuits` on a subcircuit scope: extend the
available names with this scope's subcircuit names, recursively sort each
nested subcircuit obtaining its residual dependency set, check that every
required subcircuit is available, run the fixpoint loop to reorder
`_subcircuits`, and return the required names not defined in this scope. -/
def sortSub (avail : List String) : SubIR → Except PyExc (SubIR × List String)
  | .mk nm nodes dp st subckts models ps reqSub reqMod => do
    let names := subckts.map (fun x => pyLower x.name)
    let pAvail := setUnion (lowerList avail) names
    let pairs ← sortSubList pAvail subckts
    match reqSub.find? (fun r => decide (r ∉ pAvail)) with
    | some r =>
      .error (.valueError ("Subcircuit (" ++ r ++ ") not available in (" ++ nm ++ ")"))
    | none => do
      let sorted ← resolveScope pairs
      .ok (.mk nm nodes dp st sorted models ps reqSub reqMod, setDiff reqSub names)

def sortSubList (avail : List String) : List SubIR → Except PyExc (List SortItem)
  | [] => .ok []
  | c :: cs => do
    let (c', required) ← sortSub avail c
    let rest ← sortSubList avail cs
    .ok ((c', required) :: rest)

end

/-- `SpiceParser._sort_subcircuits` at the root (default empty inherited
set); the returned residual set is what the recursive calls consume and the
top-level call discards. -/
def sortRoot (c : CircuitIR) : Except PyExc (CircuitIR × List String) := do
  let names := c.subcircuits.map (fun x => pyLower x.name)
  let pAvail := setUnion [] names
  let pairs ← sortSubList pAvail c.subcircuits
  match c.reqSub.find? (fun r => decide (r ∉ pAvail)) with
  | some r =>
    .error (.valueError ("Subcircuit (" ++ r ++ ") not available in (" ++ c.name ++ ")"))
  | none => do
    let sorted ← resolveScope pairs
    .ok ({ c with subcircuits := sorted }, setDiff c.reqSub names)

/- ### `SpiceParser.__init__` and the public predicates -/

/-- The `library=True` adjustment: republish the root's own model and
subcircuit names as its required sets. -/
def promoteLibrary (c : CircuitIR) : CircuitIR :=
  { c with reqMod := (c.models.map (fun m => pyLower m.name)).eraseDups,
           reqSub := (c.subcircuits.map (fun s => pyLower s.name)).eraseDups }

/-- `SpiceParser.__init__` from the grammar stage onwards.  `cwd` models the
`os.getcwd()` fallback; `parseResult` is the outcome of the tatsu grammar
parse (the grammar itself is not under `src/`).  A grammar failure is
wrapped into `ParseError` (prefixed with the path when one was given); the
semantic walk is _not_ wrapped, so its exceptions propagate as raised; the
model check and subcircuit sort are wrapped into `ParseError` prefixed with
the path. -/
def spiceParserInit (cwd : String) (path : Option String)
    (parseResult : Except PyExc CST) (library : Bool) : Except PyExc CircuitIR :=
  match parseResult with
  | .error e =>
    match path with
    | some p => .error (.parseError (p ++ ": " ++ e.msg))
    | none => .error (.parseError e.msg)
  | .ok cst =>
    let pathStr := path.getD cwd
    match walkModel pathStr cst with
    | .error e => .error e
    | .ok circuit =>
      let circuit := if library then promoteLibrary circuit else circuit
      match checkModelsRoot circuit with
      | .error e => .error (.parseError (pathStr ++ ": " ++ e.msg))
      | .ok () =>
        match sortRoot circuit with
        | .error e => .error (.parseError (pathStr ++ ": " ++ e.msg))
        | .ok (c', _) => .ok c'

/-- Python truthiness of the root `CircuitStatement`: the class defines
neither `__bool__` nor `__len__`, so every instance is truthy. -/
def circuitTruthy (_c : CircuitIR) : Bool := true

/-- Python truthiness of an IR list attribute. -/
def listTruthy {α : Type} (l : List α) : Bool := !l.isEmpty

/-- `SpiceParser.is_only_subcircuit`: `bool(not self._circuit and
self.subcircuits)`. -/
def isOnlySubcircuit (c : CircuitIR) : Bool :=
  !circuitTruthy c && listTruthy c.subcircuits

/-- `SpiceParser.is_only_model`: `bool(not self.circuit and not
self.subcircuits and self.models)`. -/
def isOnlyModel (c : CircuitIR) : Bool :=
  !circuitTruthy c && !listTruthy c.subcircuits && listTruthy c.models

/- ### `build()` -/

/-- A built element as handed to the netlist sink:
`self._statement(circuit, self._name, *self._nodes, **self._params)`. -/
structure BuiltElement where
  cls : DeviceClass
  name : String
  nodes : List String
  params : List (String × Value)
  deriving DecidableEq, Repr

/-- `ElementStatement.build(circuit, ground)`: the ground argument is
accepted and ignored — the nodes are passed through unchanged (the class's
`translate_ground_node` is never invoked on this path). -/
def elementBuild (e : ElementStatement) (_ground : String) : BuiltElement :=
  { cls := e.statement, name := e.ename, nodes := e.nodes, params := e.params }

/-- `ElementStatement.translate_ground_node`: iterates the nodes and, on the
first node equal to the ground name, assigns into the nonexistent
`self._node` attribute — an `AttributeError`; with no matching node it
returns the never-extended empty list. -/
def translateGroundNode (e : ElementStatement) (ground : String) :
    Except PyExc (List String) :=
  if e.nodes.any (fun n => n = ground) then
    .error (.attributeError "ElementStatement object has no attribute _node")
  else
    .ok []

/-- A built subcircuit (the external `SubCircuit` sink object). -/
inductive BuiltSub where
  | mk (name : String) (nodes : List String) (defparams : List (String × Value))
       (parameters : List (String × Value)) (models : List ModelStatementIR)
       (subckts : List BuiltSub) (elements : List BuiltElement)

/-- The element statements of a statement list, in order. -/
def elementsOf (l : List Stmt) : List ElementStatement :=
  l.map (fun s => match s with | .elem e => e)

mutual

/-- `SubCircuitStatement.build(ground, parent)`: parameters, models, nested
subcircuits (attached via `subcircuit(...)`), then the element statements,
each built with the ground argument (which `ElementStatement.build`
ignores). -/
def buildSub (ground : String) : SubIR → BuiltSub
  | .mk nm nodes dp st subckts models ps _ _ =>
    .mk nm nodes dp
      (ps.foldl (fun acc (p : ParamStatementIR) => acc ++ p.params) [])
      models
      (buildSubList ground subckts)
      ((elementsOf st).map (fun e => elementBuild e ground))

def buildSubList (ground : String) : List SubIR → List BuiltSub
  | [] => []
  | c :: rest => buildSub ground c :: buildSubList ground rest

end

/-- The circuit sink produced by `CircuitStatement.build`. -/
structure BuiltCircuit where
  title : String
  parameters : List (String × Value)
  models : List ModelStatementIR
  subckts : List BuiltSub
  elements : List BuiltElement

/-- `LibCallStatement.build`: look the entry up in the root's library map
(`KeyError` when absent) and replay the library's params and models into the
sink.  (The library's subcircuits are built with the sink object passed in
the ground position and the results discarded, so they contribute nothing.) -/
def libCallBuild (libraries : List (String × LibIR)) (entry : String)
    (sink : BuiltCircuit) : Except PyExc BuiltCircuit :=
  match dictGet entry libraries with
  | none => .error (.keyError entry)
  | some lib =>
    .ok { sink with
          parameters := sink.parameters ++
            lib.params.foldl (fun acc (p : ParamStatementIR) => acc ++ p.params) [],
          models := sink.models ++ lib.models }

/-- `CircuitStatement.build(ground)`: library calls, params, models,
subcircuits, then the element statements — each element built with the
ground argument, which is ignored, so every node token reaches the sink
unchanged. -/
def buildCircuit (c : CircuitIR) (ground : String) : Except PyExc BuiltCircuit := do
  let sink : BuiltCircuit :=
    { title := c.title, parameters := [], models := [], subckts := [], elements := [] }
  let sink ← c.libraryCalls.foldlM
    (fun acc call => libCallBuild c.libraries call.2 acc) sink
  let sink := { sink with
    parameters := sink.parameters ++
      c.params.foldl (fun acc (p : ParamStatementIR) => acc ++ p.params) [] }
  let sink := { sink with models := sink.models ++ c.models }
  let sink := { sink with subckts := buildSubList ground c.subcircuits }
  .ok { sink with
        elements := (elementsOf c.statements).map (fun e => elementBuild e ground) }

/- ### Specification-side predicates -/

/-- The dependency set of a subcircuit within its scope, as the resolver
computes it: the required subcircuit names minus the names of its own nested
subcircuits. -/
def scDeps (s : SubIR) : List String :=
  setDiff s.reqSub (s.subcircuits.map (fun x => pyLower x.name))

/-- The lowercased names of the subcircuits of the items of a sort worklist. -/
def itemNames (l : List SortItem) : List String :=
  l.map (fun it => pyLower it.1.name)

/-- Every subcircuit of the list has all its scope dependencies among `seen`
or among the (lowercased) names of the subcircuits before it. -/
def DepsBefore (seen : List String) : List SubIR → Prop
  | [] => True
  | s :: rest => (∀ d ∈ scDeps s, d ∈ seen) ∧ DepsBefore (seen ++ [pyLower s.name]) rest

/-- Topological ordering of one scope's subcircuit list: every dependency of
a subcircuit is the name of a subcircuit appearing strictly earlier. -/
def ScopeOrdered (l : List SubIR) : Prop := DepsBefore [] l

/-- Topological ordering of a subcircuit's own list and, recursively, of
every nested scope. -/
inductive TopoDeep : SubIR → Prop where
  | intro : ∀ (s : SubIR), ScopeOrdered s.subcircuits →
      (∀ c ∈ s.subcircuits, TopoDeep c) → TopoDeep s

/-- Invariant of the emission list of the sort fixpoint: each emitted item's
dependency set is contained in `base` extended with the names emitted before
it. -/
def OrderedFrom (base : List String) : List SortItem → Prop
  | [] => True
  | it :: rest => (∀ d ∈ it.2, d ∈ base) ∧ OrderedFrom (base ++ [pyLower it.1.name]) rest

mutual

/-- Specification-side accumulation of §4.5: every scope of the tree paired
with its accumulated available-model set — the lowercased models defined in
the scope plus those inherited from the enclosing scopes. -/
def scopesWithSub (avail : List String) : SubIR → List (List String × SubIR)
  | .mk nm nd dp st subckts models ps rs rm =>
    let acc := setUnion (lowerList avail) (models.map (fun m => pyLower m.name))
    (acc, .mk nm nd dp st subckts models ps rs rm) :: scopesWithList acc subckts

def scopesWithList (avail : List String) : List SubIR → List (List String × SubIR)
  | [] => []
  | c :: cs => scopesWithSub avail c ++ scopesWithList avail cs

end

/-- The scopes of the whole circuit with their accumulated model sets. -/
def scopesWithRoot (c : CircuitIR) : List (List String × SubIR) :=
  scopesWithList (setUnion [] (c.models.map (fun m => pyLower m.name))) c.subcircuits

/-- Modelled from the spec: `BasicElement.BehavioralSource` (not under
`src/`) binds the walker's `V` keyword argument to its `voltage_expression`
parameter. -/
def voltageExpression (e : ElementStatement) : Option Value :=
  dictGet "V" e.params

/-- Modelled from the spec: `BasicElement.BehavioralSource` binds the
walker's `I` keyword argument to its `current_expression` parameter. -/
def currentExpression (e : ElementStatement) : Option Value :=
  dictGet "I" e.params

/- ### Concrete instances used by the claim theorems and witnesses -/

/-- A fresh walker state on an empty root circuit. -/
def wState0 : WState := { root := CircuitIR.init "t" "f.cir", present := .top }

/-- An `X` instance line token list instantiating subcircuit `A`. -/
def xInstOf (dev target : String) : Line :=
  .subinst { dev := dev, nodeTokens := ["p", target], paramsFlag := false, parameters := none }

/-- Three subcircuits in source order `A`, `B`, `C` where `B` instantiates
`A` and `C` instantiates `B` (spec scenario 5). -/
def chainCST : CST :=
  { title := "t", lines :=
      [.subcktCmd (.single "A") none none [],
       .subcktCmd (.single "B") none none [xInstOf "X1" "A"],
       .subcktCmd (.single "C") none none [xInstOf "X2" "B"]] }

/-- The circuit the parser produces for `chainCST`. -/
def chainResult : CircuitIR :=
  (spiceParserInit "/cwd" (some "f.cir") (.ok chainCST) false).toOption.getD
    (CircuitIR.init "" "")

/-- Mutually recursive subcircuits `A` and `B` (spec scenario 6). -/
def cycleCST : CST :=
  { title := "t", lines :=
      [.subcktCmd (.single "A") none none [xInstOf "X2" "B"],
       .subcktCmd (.single "B") none none [xInstOf "X1" "A"]] }

/-- Root defines `X` and `S`; `S` contains subcircuit `B` whose only
dependency is the inherited `X` — no cycle exists among `S`'s subcircuits. -/
def inheritedDepCST : CST :=
  { title := "t", lines :=
      [.subcktCmd (.single "X") none none [],
       .subcktCmd (.single "S") none none
         [.subcktCmd (.single "B") none none [xInstOf "X1" "X"]]] }

/-- `M1 d g s b UNKMOD` with no matching `.model` (spec scenario 4). -/
def unkmodCST : CST :=
  { title := "t", lines :=
      [.mosfet { dev := "M1", model := some "UNKMOD", param := none,
                 drain := "d", gate := "g", source := "s", bulk := "b" }] }

/-- A BJT line `Q1 c b e 2N2222` whose CST carries the walked `area=1.5`
keyword value. -/
def bjtAreaKw1 : BJTNode :=
  { dev := "Q1", args := ["2N2222"], collector := "c", base := "b",
    emitter := "e", substrate := none, area := some (.dec 15 (-1)), parameters := none }

/-- As `bjtAreaKw1` but with the two trailing tokens `2N2222 1.5`. -/
def bjtAreaKw2 : BJTNode :=
  { dev := "Q1", args := ["2N2222", "1.5"], collector := "c", base := "b",
    emitter := "e", substrate := none, area := some (.dec 15 (-1)), parameters := none }

/-- A switch line `S1 p n cp cn SW` with both control nodes. -/
def swBothNode : SwitchNode :=
  { dev := "S1", model := some "SW", initialState := none,
    positive := "p", negative := "n", controlP := some "cp", controlN := some "cn" }

/-- `R1 gnd out 1k` as an element statement. -/
def rGndElem : ElementStatement :=
  ElementStatement.ofName .Resistor "R1" ["gnd", "out"] [("resistance", .int 1000)]

/-- A one-element circuit around `rGndElem`. -/
def rGndCircuit : CircuitIR :=
  { CircuitIR.init "t" "f.cir" with statements := [.elem rGndElem] }

/-- A two-column `.data` directive node. -/
def dataNodeXY : DataNode :=
  { table := "tab", names := ["x", "y"],
    values := [.int 1, .int 2, .int 3, .int 4], line := 3 }

/-- A second `.data` directive with the same table name. -/
def dataNodeXY2 : DataNode :=
  { table := "tab", names := ["x"], values := [.int 7], line := 9 }

/-- The root-scope worklist of the `A`/`B` cycle: `A` depends on `b`, `B`
on `a`. -/
def c7CycPairs : List SortItem :=
  [(SubIR.fresh "A" [] [], ["b"]), (SubIR.fresh "B" [] [], ["a"])]

/-- An acyclic worklist: `A` has no dependency, `B` depends on `a`. -/
def c7ChainPairs : List SortItem :=
  [(SubIR.fresh "A" [] [], []), (SubIR.fresh "B" [] [], ["a"])]

/-- A topological rank for `c7ChainPairs`. -/
def c7Rank (s : String) : Nat := if s = "a" then 0 else 1

/-- A BJT line with no trailing arguments at all — the walker's
device-shape `ValueError`. -/
def bjtNoModelCST : CST :=
  { title := "t", lines :=
      [.bjt { dev := "Q1", args := [], collector := "c", base := "b",
              emitter := "e", substrate := none, area := none, parameters := none }] }

/-- A `.subckt A … .ends B` name mismatch — the walker's `NameError`. -/
def mismatchCST : CST :=
  { title := "t", lines := [.subcktCmd (.pair "A" "B") none none []] }

/-- The device letter of a controlled-source instance name is `E`, `F`, `G`
or `H`. -/
def startsWithEFGH (s : String) : Bool :=
  match s.toList with
  | c :: _ => c = 'E' ∨ c = 'F' ∨ c = 'G' ∨ c = 'H'
  | [] => false

/-- A VCVS line `E1 p n cp cn 2`. -/
def vcvsNodeEx : VCNode :=
  { dev := "E1", controller := none, controlPositive := some "cp",
    controlNegative := some "cn", gain := some (.int 2), positive := "p", negative := "n" }

/-- A VCCS line `G1 p n cp cn 2`. -/
def vccsNodeEx : VCNode := { vcvsNodeEx with dev := "G1" }

/-- A CCCS line `F1 p n V1 3` (gain form). -/
def cccsNodeEx : CCNode :=
  { dev := "F1", controller := none, gain := some (.int 3),
    positive := "p", negative := "n" }

/-- A CCVS line `H1 p n V1 3` (transresistance form). -/
def ccvsNodeEx : CCNode := { cccsNodeEx with dev := "H1" }

/-- The walker states the four controlled-source examples produce. -/
def vcvsResult : WState := (walkVCVS wState0 vcvsNodeEx).toOption.getD wState0

def vccsResult : WState := (walkVCCS wState0 vccsNodeEx).toOption.getD wState0

def cccsResult : WState := (walkCCCS wState0 cccsNodeEx).toOption.getD wState0

def ccvsResult : WState := (walkCCVS wState0 ccvsNodeEx).toOption.getD wState0

/-- `swBothNode` without any control node. -/
def swNoneNode : SwitchNode := { swBothNode with controlP := none, controlN := none }

/-- Walker states for the accepted switch examples. -/
def swBothResult : WState := (walkSwitch wState0 swBothNode).toOption.getD wState0

def swNoneResult : WState := (walkSwitch wState0 swNoneNode).toOption.getD wState0

/-- A `.model`-only netlist (one `.model` statement, nothing else). -/
def modelOnlyCST : CST :=
  { title := "t", lines := [.modelCmd { name := "m1", mtype := "NPN", parameters := none }] }

/-- A walker state whose current scope is an open subcircuit. -/
def wStateInSub : WState :=
  { root := CircuitIR.init "t" "f.cir", present := .sub (SubIR.fresh "inner" [] []) }

/- ### Helper lemmas -/

theorem dictGet_dictSet_self {α : Type} (k : String) (v : α) (d : List (String × α)) :
    dictGet k (dictSet k v d) = some v := by
  induction d with
  | nil => simp [dictSet, dictGet]
  | cons kv rest ih =>
    obtain ⟨k', v'⟩ := kv
    by_cases h : k' = k
    · simp [dictSet, dictGet, h]
    · simp [dictSet, dictGet, h, ih]

theorem dictGet_dictSet_ne {α : Type} (k k' : String) (v : α) (d : List (String × α))
    (h : k' ≠ k) : dictGet k' (dictSet k v d) = dictGet k' d := by
  induction d with
  | nil => simp [dictSet, dictGet, Ne.symm h]
  | cons kv rest ih =>
    obtain ⟨k₀, v₀⟩ := kv
    by_cases h0 : k₀ = k
    · subst h0
      simp only [dictSet, if_pos rfl, dictGet, Ne.symm h, if_neg (Ne.symm h)]
      simp [Ne.symm h]
    · simp only [dictSet, if_neg h0, dictGet]
      by_cases h1 : k₀ = k'
      · simp [h1]
      · simp [h1, ih]

theorem listIsPre_append (p q : List Char) : listIsPre p (p ++ q) = true := by
  induction p with
  | nil => simp [listIsPre]
  | cons c cs ih => simp [listIsPre, ih]

theorem listHasSub_of_append (p q : List Char) : listHasSub p (p ++ q) = true := by
  cases hp : p ++ q with
  | nil => simp [listHasSub, hp.symm ▸ listIsPre_append p q]
  | cons c cs =>
    simp only [listHasSub]
    rw [← hp]
    simp [listIsPre_append]

theorem strHasSub_of_append (p q : String) : strHasSub (p ++ q) p = true := by
  have : (p ++ q).toList = p.toList ++ q.toList := by
    simp [String.toList, String.data_append]
  simp [strHasSub, this, listHasSub_of_append]

theorem listHasSub_of_isPre (p l : List Char) (h : listIsPre p l = true) :
    listHasSub p l = true := by
  cases l with
  | nil =>
    simpa [listHasSub] using h
  | cons c cs =>
    simp [listHasSub, h]

theorem strHasSub_of_isPre (s p : String) (h : listIsPre p.toList s.toList = true) :
    strHasSub s p = true :=
  listHasSub_of_isPre _ _ h

theorem itemNames_append (a b : List SortItem) :
    itemNames (a ++ b) = itemNames a ++ itemNames b := by
  simp [itemNames]

theorem passOnce_perm (l : List SortItem) (names : List String) (acc : List SortItem) :
    ((passOnce names acc l).2.1 ++ (passOnce names acc l).2.2).Perm (acc ++ l) := by
  induction l generalizing names acc with
  | nil => simp [passOnce]
  | cons it rest ih =>
    simp only [passOnce]
    by_cases h : it.2.all (fun d => decide (d ∈ names)) = true
    · simp only [h, if_pos]
      refine ((ih _ _).trans ?_)
      simp [List.append_assoc]
    · simp only [h, if_neg, Bool.not_eq_true]
      have h2 := ih names acc
      have p1 : ((passOnce names acc rest).2.1 ++ it :: (passOnce names acc rest).2.2).Perm
          (it :: ((passOnce names acc rest).2.1 ++ (passOnce names acc rest).2.2)) :=
        List.perm_middle
      exact p1.trans ((h2.cons it).trans List.perm_middle.symm)

theorem passOnce_kept_sublist (l : List SortItem) (names : List String) (acc : List SortItem) :
    (passOnce names acc l).2.2.Sublist l := by
  induction l generalizing names acc with
  | nil => simp [passOnce]
  | cons it rest ih =>
    simp only [passOnce]
    by_cases h : it.2.all (fun d => decide (d ∈ names)) = true
    · simp only [h, if_pos]
      exact (ih _ _).trans (List.sublist_cons_self it rest)
    · simp only [h, if_neg, Bool.not_eq_true]
      exact (ih names acc).cons₂ it

theorem OrderedFrom_append_one (acc : List SortItem) (base : List String) (it : SortItem)
    (h : OrderedFrom base acc) (hd : ∀ d ∈ it.2, d ∈ base ++ itemNames acc) :
    OrderedFrom base (acc ++ [it]) := by
  induction acc generalizing base with
  | nil =>
    refine ⟨?_, trivial⟩
    intro d hdm
    have := hd d hdm
    simpa only [itemNames, List.map_nil, List.append_nil] using this
  | cons a rest ih =>
    obtain ⟨h1, h2⟩ := h
    refine ⟨h1, ih (base ++ [pyLower a.1.name]) h2 ?_⟩
    intro d hdm
    have := hd d hdm
    simp only [itemNames, List.map_cons, List.map_append, List.mem_append,
      List.mem_cons, List.mem_singleton] at this ⊢
    tauto

theorem passOnce_inv (l : List SortItem) (names : List String) (acc : List SortItem)
    (hn : names = itemNames acc) (ho : OrderedFrom [] acc) :
    (passOnce names acc l).1 = itemNames (passOnce names acc l).2.1 ∧
      OrderedFrom [] (passOnce names acc l).2.1 := by
  induction l generalizing names acc with
  | nil => exact ⟨hn, ho⟩
  | cons it rest ih =>
    simp only [passOnce]
    by_cases h : it.2.all (fun d => decide (d ∈ names)) = true
    · simp only [h, if_pos]
      refine ih _ _ ?_ ?_
      · simp [itemNames_append, hn, itemNames]
      · refine OrderedFrom_append_one acc [] it ho ?_
        intro d hdm
        have := List.all_eq_true.mp h d hdm
        simp only [decide_eq_true_eq] at this
        simpa [hn] using this
    · simp only [h, if_neg, Bool.not_eq_true]
      exact ih names acc hn ho

theorem passOnce_progress (l : List SortItem) (names : List String) (acc : List SortItem)
    (hp : ∃ it ∈ l, ∀ d ∈ it.2, d ∈ names) :
    (passOnce names acc l).2.2.length < l.length := by
  induction l generalizing names acc with
  | nil => obtain ⟨it, hm, _⟩ := hp; cases hm
  | cons it rest ih =>
    simp only [passOnce]
    by_cases h : it.2.all (fun d => decide (d ∈ names)) = true
    · simp only [h, if_pos]
      have := (passOnce_kept_sublist rest (names ++ [pyLower it.1.name]) (acc ++ [it])).length_le
      simpa using Nat.lt_succ_of_le this
    · simp only [h, if_neg, Bool.not_eq_true]
      obtain ⟨w, hw, hwd⟩ := hp
      rcases List.mem_cons.mp hw with rfl | hw'
      · exfalso
        apply h
        refine List.all_eq_true.mpr ?_
        intro d hd
        simpa using hwd d hd
      · have := ih names acc ⟨w, hw', hwd⟩
        simpa using Nat.succ_lt_succ this

theorem runPasses_perm (fuel : Nat) (names : List String) (acc items : List SortItem) :
    ((runPasses fuel names acc items).2.1 ++ (runPasses fuel names acc items).2.2).Perm
      (acc ++ items) := by
  induction fuel generalizing names acc items with
  | zero => simp [runPasses]
  | succ fuel ih =>
    simp only [runPasses]
    by_cases he : items.isEmpty = true
    · simp [he]
    · simp only [he, if_neg, Bool.not_eq_true]
      by_cases hl : (passOnce names acc items).2.2.length = items.length
      · simp only [hl, if_pos]
        exact passOnce_perm items names acc
      · simp only [hl, if_neg]
        exact (ih _ _ _).trans (passOnce_perm items names acc)

theorem runPasses_inv (fuel : Nat) (names : List String) (acc items : List SortItem)
    (hn : names = itemNames acc) (ho : OrderedFrom [] acc) :
    OrderedFrom [] (runPasses fuel names acc items).2.1 := by
  induction fuel generalizing names acc items with
  | zero => simpa [runPasses] using ho
  | succ fuel ih =>
    simp only [runPasses]
    by_cases he : items.isEmpty = true
    · simpa [he] using ho
    · simp only [he, if_neg, Bool.not_eq_true]
      obtain ⟨hn', ho'⟩ := passOnce_inv items names acc hn ho
      by_cases hl : (passOnce names acc items).2.2.length = items.length
      · simpa only [hl, if_pos] using ho'
      · simp only [hl, if_neg]
        exact ih _ _ _ hn' ho'

theorem insByLen_perm (x : SortItem) (l : List SortItem) :
    (insByLen x l).Perm (x :: l) := by
  induction l with
  | nil => simp [insByLen]
  | cons y ys ih =>
    simp only [insByLen]
    by_cases h : x.2.length ≤ y.2.length
    · simp [h]
    · simp only [h, if_neg]
      exact (ih.cons y).trans (List.Perm.swap x y ys)

theorem sortByDepLen_perm (l : List SortItem) : (sortByDepLen l).Perm l := by
  induction l with
  | nil => simp [sortByDepLen]
  | cons x xs ih =>
    exact (insByLen_perm x (sortByDepLen xs)).trans (ih.cons x)

theorem resolveScope_ok (pairs : List SortItem) (l : List SubIR)
    (h : resolveScope pairs = .ok l) :
    ∃ accItems : List SortItem, l = accItems.map Prod.fst ∧
      OrderedFrom [] accItems ∧ accItems.Perm pairs := by
  simp only [resolveScope] at h
  by_cases he : (runPasses (sortByDepLen pairs).length.succ [] [] (sortByDepLen pairs)).2.2.isEmpty = true
  · simp only [Nat.succ_eq_add_one, he, if_pos, Except.ok.injEq] at h
    refine ⟨(runPasses ((sortByDepLen pairs).length + 1) [] [] (sortByDepLen pairs)).2.1,
      h.symm, ?_, ?_⟩
    · exact runPasses_inv _ _ _ _ (by simp [itemNames]) trivial
    · have hp := runPasses_perm ((sortByDepLen pairs).length + 1) [] [] (sortByDepLen pairs)
      rw [List.isEmpty_iff] at he
      rw [he, List.append_nil, List.nil_append] at hp
      exact hp.trans (sortByDepLen_perm pairs)
  · simp [Nat.succ_eq_add_one, he] at h

theorem resolveScope_error (pairs : List SortItem) (e : PyExc)
    (h : resolveScope pairs = .error e) :
    ∃ m, e = .valueError m ∧ strHasSub m "Crossed dependencies" = true := by
  simp only [resolveScope] at h
  by_cases he : (runPasses (sortByDepLen pairs).length.succ [] [] (sortByDepLen pairs)).2.2.isEmpty = true
  · simp [Nat.succ_eq_add_one, he] at h
  · simp only [Nat.succ_eq_add_one, he, if_neg, Bool.not_eq_true, Except.error.injEq] at h
    refine ⟨_, h.symm, ?_⟩
    apply strHasSub_of_isPre
    have hsplit : ("Crossed dependencies (" : String).data
        = ("Crossed dependencies" : String).data ++ [' ', '('] := by decide
    simp only [String.toList, String.data_append, hsplit, List.append_assoc]
    exact listIsPre_append _ _

theorem OrderedFrom_to_DepsBefore (acc : List SortItem) (base : List String)
    (ho : OrderedFrom base acc) (hd : ∀ it ∈ acc, it.2 = scDeps it.1) :
    DepsBefore base (acc.map Prod.fst) := by
  induction acc generalizing base with
  | nil => trivial
  | cons it rest ih =>
    obtain ⟨h1, h2⟩ := ho
    refine ⟨?_, ?_⟩
    · intro d hdm
      apply h1
      rw [hd it (by simp)]
      exact hdm
    · exact ih (base ++ [pyLower it.1.name]) h2 (fun x hx => hd x (by simp [hx]))

theorem forall₂_map_eq {α β : Type} {R : α → β → Prop} {l1 : List α} {l2 : List β}
    (f : β → String) (g : α → String) (h : List.Forall₂ R l1 l2)
    (hfg : ∀ a b, R a b → f b = g a) : l2.map f = l1.map g := by
  induction h with
  | nil => rfl
  | cons hr _ ih => simp [hfg _ _ hr, ih]

theorem forall₂_mem_right {α β : Type} {R : α → β → Prop} {l1 : List α} {l2 : List β}
    (h : List.Forall₂ R l1 l2) (b : β) (hb : b ∈ l2) : ∃ a ∈ l1, R a b := by
  induction h with
  | nil => cases hb
  | cons hr hrest ih =>
    rcases List.mem_cons.mp hb with rfl | hb'
    · exact ⟨_, by simp, hr⟩
    · obtain ⟨a, ha, har⟩ := ih hb'
      exact ⟨a, by simp [ha], har⟩

theorem setDiff_congr (l xs ys : List String) (h : ∀ a, a ∈ xs ↔ a ∈ ys) :
    setDiff l xs = setDiff l ys := by
  unfold setDiff
  induction l with
  | nil => rfl
  | cons a rest ih =>
    rw [List.filter_cons, List.filter_cons]
    have hiff : decide (a ∉ xs) = decide (a ∉ ys) := by
      by_cases hm : a ∈ xs
      · simp [hm, (h a).mp hm]
      · have hy : a ∉ ys := fun hy => hm ((h a).mpr hy)
        simp [hm, hy]
    rw [hiff, ih]

mutual

theorem sortSub_good (avail : List String) (c : SubIR) (c' : SubIR) (r : List String)
    (h : sortSub avail c = .ok (c', r)) :
    c'.name = c.name ∧ c'.reqSub = c.reqSub ∧
      (c'.subcircuits.map (fun x => pyLower x.name)).Perm
        (c.subcircuits.map (fun x => pyLower x.name)) ∧
      r = scDeps c' ∧ TopoDeep c' := by
  cases c with
  | mk nm nodes dp st subckts models ps reqSub reqMod =>
    rw [sortSub] at h
    cases hps : sortSubList (setUnion (lowerList avail)
        (subckts.map (fun x => pyLower x.name))) subckts with
    | error e => rw [hps] at h; simp [Bind.bind, Except.bind] at h
    | ok pairs =>
      have hlist := sortSubList_good _ _ _ hps
      rw [hps] at h
      simp only [Bind.bind, Except.bind] at h
      cases hfind : reqSub.find? (fun x =>
          decide (x ∉ setUnion (lowerList avail) (subckts.map (fun x => pyLower x.name)))) with
      | some r0 => rw [hfind] at h; simp at h
      | none =>
        rw [hfind] at h
        cases hrs : resolveScope pairs with
        | error e => rw [hrs] at h; simp [Bind.bind, Except.bind] at h
        | ok sorted =>
          rw [hrs] at h
          simp only [Bind.bind, Except.bind, Except.ok.injEq, Prod.mk.injEq] at h
          obtain ⟨hc', hr⟩ := h
          subst hc'
          subst hr
          obtain ⟨accItems, hsorted, hord, hperm⟩ := resolveScope_ok pairs sorted hrs
          have hmem : ∀ p ∈ pairs, p.2 = scDeps p.1 ∧ TopoDeep p.1 := by
            intro p hp
            obtain ⟨a, _, hrel⟩ := forall₂_mem_right hlist p hp
            exact ⟨hrel.2.2.2.1, hrel.2.2.2.2⟩
          have hpairsnames : itemNames pairs = subckts.map (fun x => pyLower x.name) := by
            exact forall₂_map_eq _ _ hlist (fun a b hrel => by rw [hrel.1])
          have hsortednames : sorted.map (fun x => pyLower x.name) = itemNames accItems := by
            rw [hsorted]
            simp [itemNames, List.map_map]
          have hitemperm : (itemNames accItems).Perm (itemNames pairs) :=
            hperm.map _
          have hnamesperm : (sorted.map (fun x => pyLower x.name)).Perm
              (subckts.map (fun x => pyLower x.name)) := by
            rw [hsortednames, ← hpairsnames]
            exact hitemperm
          refine ⟨rfl, rfl, ?_, ?_, ?_⟩
          · simpa [SubIR.subcircuits] using hnamesperm
          · show setDiff reqSub (subckts.map (fun x => pyLower x.name)) = _
            simp only [scDeps, SubIR.reqSub, SubIR.subcircuits]
            exact setDiff_congr _ _ _ (fun a => (hnamesperm.symm).mem_iff)
          · refine TopoDeep.intro _ ?_ ?_
            · show ScopeOrdered sorted
              have := OrderedFrom_to_DepsBefore accItems [] hord
                (fun it hit => (hmem it (hperm.subset hit)).1)
              rw [hsorted]
              exact this
            · intro x hx
              simp only [SubIR.subcircuits] at hx
              rw [hsorted] at hx
              obtain ⟨it, hit, hxeq⟩ := List.mem_map.mp hx
              have := (hmem it (hperm.subset hit)).2
              rwa [hxeq] at this

theorem sortSubList_good (avail : List String) (cs : List SubIR) (pairs : List SortItem)
    (h : sortSubList avail cs = .ok pairs) :
    List.Forall₂ (fun c p => p.1.name = c.name ∧ p.1.reqSub = c.reqSub ∧
      (p.1.subcircuits.map (fun x => pyLower x.name)).Perm
        (c.subcircuits.map (fun x => pyLower x.name)) ∧
      p.2 = scDeps p.1 ∧ TopoDeep p.1) cs pairs := by
  cases cs with
  | nil =>
    rw [sortSubList] at h
    cases h
    exact List.Forall₂.nil
  | cons c rest =>
    rw [sortSubList] at h
    cases hc : sortSub avail c with
    | error e => rw [hc] at h; simp [Bind.bind, Except.bind] at h
    | ok p =>
      rw [hc] at h
      simp only [Bind.bind, Except.bind] at h
      cases hrest : sortSubList avail rest with
      | error e => rw [hrest] at h; simp at h
      | ok prest =>
        rw [hrest] at h
        simp only [Except.ok.injEq] at h
        subst h
        exact List.Forall₂.cons (sortSub_good avail c p.1 p.2 (by simpa using hc))
          (sortSubList_good avail rest prest hrest)

end

theorem resolveScope_sorted_good (pairs : List SortItem) (sorted : List SubIR)
    (hrs : resolveScope pairs = .ok sorted)
    (hmem : ∀ p ∈ pairs, p.2 = scDeps p.1 ∧ TopoDeep p.1) :
    ScopeOrdered sorted ∧ ∀ s ∈ sorted, TopoDeep s := by
  obtain ⟨accItems, hsorted, hord, hperm⟩ := resolveScope_ok pairs sorted hrs
  constructor
  · have := OrderedFrom_to_DepsBefore accItems [] hord
      (fun it hit => (hmem it (hperm.subset hit)).1)
    rw [hsorted]
    exact this
  · intro x hx
    rw [hsorted] at hx
    obtain ⟨it, hit, hxeq⟩ := List.mem_map.mp hx
    have := (hmem it (hperm.subset hit)).2
    rwa [hxeq] at this

theorem sortRoot_good (c : CircuitIR) (c' : CircuitIR) (r : List String)
    (h : sortRoot c = .ok (c', r)) :
    ScopeOrdered c'.subcircuits ∧ ∀ s ∈ c'.subcircuits, TopoDeep s := by
  rw [sortRoot] at h
  cases hps : sortSubList (setUnion [] (c.subcircuits.map (fun x => pyLower x.name)))
      c.subcircuits with
  | error e => rw [hps] at h; simp [Bind.bind, Except.bind] at h
  | ok pairs =>
    have hlist := sortSubList_good _ _ _ hps
    rw [hps] at h
    simp only [Bind.bind, Except.bind] at h
    cases hfind : c.reqSub.find? (fun x =>
        decide (x ∉ setUnion [] (c.subcircuits.map (fun x => pyLower x.name)))) with
    | some r0 => rw [hfind] at h; simp at h
    | none =>
      rw [hfind] at h
      cases hrs : resolveScope pairs with
      | error e => rw [hrs] at h; simp [Bind.bind, Except.bind] at h
      | ok sorted =>
        rw [hrs] at h
        simp only [Bind.bind, Except.bind, Except.ok.injEq, Prod.mk.injEq] at h
        obtain ⟨hc', _⟩ := h
        have hmem : ∀ p ∈ pairs, p.2 = scDeps p.1 ∧ TopoDeep p.1 := by
          intro p hp
          obtain ⟨a, _, hrel⟩ := forall₂_mem_right hlist p hp
          exact ⟨hrel.2.2.2.1, hrel.2.2.2.2⟩
        have hgood := resolveScope_sorted_good pairs sorted hrs hmem
        rw [← hc']
        exact hgood

theorem spiceParserInit_ok_sortRoot (cwd : String) (path : Option String)
    (parseResult : Except PyExc CST) (library : Bool) (c' : CircuitIR)
    (h : spiceParserInit cwd path parseResult library = .ok c') :
    ∃ c r, sortRoot c = .ok (c', r) := by
  unfold spiceParserInit at h
  cases parseResult with
  | error e => cases path <;> simp at h
  | ok cst =>
    simp only at h
    cases hw : walkModel (path.getD cwd) cst with
    | error e => rw [hw] at h; simp at h
    | ok circuit =>
      rw [hw] at h
      simp only at h
      cases hc : checkModelsRoot (if library then promoteLibrary circuit else circuit) with
      | error e => rw [hc] at h; simp at h
      | ok u =>
        rw [hc] at h
        simp only at h
        cases hs : sortRoot (if library then promoteLibrary circuit else circuit) with
        | error e => rw [hs] at h; simp at h
        | ok pr =>
          rw [hs] at h
          simp only [Except.ok.injEq] at h
          refine ⟨if library then promoteLibrary circuit else circuit, pr.2, ?_⟩
          rw [hs, ← h]

/- ### Claim theorems -/

/-- C1: after a successfully completed `SpiceParser` construction, every
scope's subcircuit list is topologically ordered — each subcircuit's
dependency set (its required subcircuits minus the names of its own nested
subcircuits) consists of names of subcircuits appearing strictly earlier in
that scope's list, recursively at every nesting depth; and for definitions in
source order `A`, `B`, `C` with `C` instantiating `B` and `B` instantiating
`A`, the resolved order is `[A, B, C]`. -/
theorem claim_C1 :
    (∀ (cwd : String) (path : Option String) (parseResult : Except PyExc CST)
        (library : Bool) (c' : CircuitIR),
      spiceParserInit cwd path parseResult library = .ok c' →
        ScopeOrdered c'.subcircuits ∧ ∀ s ∈ c'.subcircuits, TopoDeep s) ∧
    (spiceParserInit "/cwd" (some "f.cir") (.ok chainCST) false).map
        (fun c => c.subcircuits.map SubIR.name) = .ok ["A", "B", "C"] := by
  constructor
  · intro cwd path parseResult library c' h
    obtain ⟨c, r, hs⟩ := spiceParserInit_ok_sortRoot _ _ _ _ _ h
    exact sortRoot_good c c' r hs
  · rfl

/-- Witness for C1: the parse of the `A`/`B`/`C` chain succeeds, its resolved
subcircuit order is `[A, B, C]`, and the theorem applies to it. -/
theorem claim_C1_witness :
    spiceParserInit "/cwd" (some "f.cir") (.ok chainCST) false = .ok chainResult ∧
      chainResult.subcircuits.map SubIR.name = ["A", "B", "C"] ∧
      ScopeOrdered chainResult.subcircuits :=
  ⟨rfl, rfl, (claim_C1.1 "/cwd" (some "f.cir") (.ok chainCST) false chainResult rfl).1⟩

theorem passOnce_decomp (l : List SortItem) (names : List String) (acc : List SortItem) :
    ∃ e, (passOnce names acc l).1 = names ++ itemNames e ∧
      (passOnce names acc l).2.1 = acc ++ e ∧
      (e ++ (passOnce names acc l).2.2).Perm l := by
  induction l generalizing names acc with
  | nil => exact ⟨[], by simp [passOnce, itemNames], by simp [passOnce], by simp [passOnce]⟩
  | cons it rest ih =>
    simp only [passOnce]
    by_cases h : it.2.all (fun d => decide (d ∈ names)) = true
    · simp only [h, if_pos]
      obtain ⟨e, h1, h2, h3⟩ := ih (names ++ [pyLower it.1.name]) (acc ++ [it])
      refine ⟨it :: e, ?_, ?_, ?_⟩
      · rw [h1]; simp [itemNames]
      · rw [h2]; simp
      · simpa using h3.cons it
    · simp only [h, if_neg, Bool.not_eq_true]
      obtain ⟨e, h1, h2, h3⟩ := ih names acc
      refine ⟨e, h1, h2, ?_⟩
      have p1 : (e ++ it :: (passOnce names acc rest).2.2).Perm
          (it :: (e ++ (passOnce names acc rest).2.2)) := List.perm_middle
      exact p1.trans (h3.cons it)

theorem passOnce_names_covers (l : List SortItem) (names : List String) (acc : List SortItem)
    (d : String) (hd : d ∈ names ++ itemNames l) :
    d ∈ (passOnce names acc l).1 ++ itemNames (passOnce names acc l).2.2 := by
  induction l generalizing names acc with
  | nil => simpa [passOnce, itemNames] using hd
  | cons it rest ih =>
    simp only [passOnce]
    by_cases h : it.2.all (fun d => decide (d ∈ names)) = true
    · simp only [h, if_pos]
      apply ih
      simp only [itemNames, List.map_cons, List.map_append, List.mem_append,
        List.mem_cons, List.mem_singleton, List.not_mem_nil] at hd ⊢
      tauto
    · simp only [h, if_neg, Bool.not_eq_true]
      simp only [itemNames, List.map_cons, List.mem_append, List.mem_cons] at hd ⊢
      rcases hd with hd | hd | hd
      · have := ih names acc (by simp [List.mem_append, hd])
        simp only [itemNames, List.mem_append] at this
        tauto
      · exact Or.inr (Or.inl hd)
      · have := ih names acc (by simp [itemNames, List.mem_append, hd])
        simp only [itemNames, List.mem_append] at this
        tauto

theorem runPasses_complete (fuel : Nat) (names : List String) (acc items : List SortItem)
    (hfuel : items.length < fuel)
    (hdeps : ∀ it ∈ items, ∀ d ∈ it.2, d ∈ names ∨ d ∈ itemNames items)
    (rank : String → Nat)
    (hrank : ∀ it ∈ items, ∀ d ∈ it.2, rank d < rank (pyLower it.1.name)) :
    (runPasses fuel names acc items).2.2 = [] := by
  induction fuel generalizing names acc items with
  | zero => omega
  | succ fuel ih =>
    simp only [runPasses]
    by_cases he : items.isEmpty = true
    · have h0 : items = [] := List.isEmpty_iff.mp he
      subst h0
      simp
    · simp only [he, if_neg, Bool.not_eq_true]
      have hne : items ≠ [] := fun hn => he (by simp [hn])
      have hargmin : ∃ m, m ∈ items.argmin (fun it => rank (pyLower it.1.name)) := by
        cases harg : items.argmin (fun it => rank (pyLower it.1.name)) with
        | none => exact absurd (List.argmin_eq_none.mp harg) hne
        | some m =>
          refine ⟨m, ?_⟩
          rw [Option.mem_def]
      obtain ⟨least, hlm⟩ := hargmin
      have hleast : least ∈ items := List.argmin_mem hlm
      have hmin : ∀ b ∈ items, rank (pyLower least.1.name) ≤ rank (pyLower b.1.name) :=
        fun b hb => List.le_of_mem_argmin (f := fun it => rank (pyLower it.1.name)) hb hlm
      have hleastdeps : ∀ d ∈ least.2, d ∈ names := by
        intro d hdm
        rcases hdeps least hleast d hdm with hn | hi
        · exact hn
        · exfalso
          obtain ⟨it', hit', hd'⟩ := List.mem_map.mp hi
          have h1 := hrank least hleast d hdm
          have h2 := hmin it' hit'
          rw [hd'] at h2
          omega
      have hprog := passOnce_progress items names acc ⟨least, hleast, hleastdeps⟩
      have hl : ¬ ((passOnce names acc items).2.2.length = items.length) := by omega
      simp only [hl, if_neg]
      obtain ⟨e, hn1, _, hperm⟩ := passOnce_decomp items names acc
      have hsub := passOnce_kept_sublist items names acc
      refine ih _ _ _ (by omega) ?_ ?_
      · intro it hit d hdm
        have hmemit : it ∈ items := hsub.subset hit
        have := passOnce_names_covers items names acc d
          (by

            rcases hdeps it hmemit d hdm with hn | hi
            · simp [List.mem_append, hn]
            · simp [List.mem_append, hi])
        simpa [List.mem_append] using this
      · intro it hit d hdm
        exact hrank it (hsub.subset hit) d hdm

theorem resolveScope_complete (pairs : List SortItem) (rank : String → Nat)
    (hdeps : ∀ it ∈ pairs, ∀ d ∈ it.2, d ∈ itemNames pairs)
    (hrank : ∀ it ∈ pairs, ∀ d ∈ it.2, rank d < rank (pyLower it.1.name)) :
    ∃ l, resolveScope pairs = .ok l ∧ l.Perm (pairs.map Prod.fst) := by
  have hsortperm := sortByDepLen_perm pairs
  have hitem : ∀ d, d ∈ itemNames pairs ↔ d ∈ itemNames (sortByDepLen pairs) := by
    intro d
    exact ((hsortperm.map (fun it => pyLower it.1.name)).mem_iff).symm
  have hcomplete := runPasses_complete ((sortByDepLen pairs).length + 1) [] []
    (sortByDepLen pairs) (by omega)
    (fun it hit d hdm => Or.inr ((hitem d).mp
      (hdeps it (hsortperm.subset hit) d hdm)))
    rank
    (fun it hit d hdm => hrank it (hsortperm.subset hit) d hdm)
  have hperm := runPasses_perm ((sortByDepLen pairs).length + 1) [] [] (sortByDepLen pairs)
  rw [hcomplete, List.append_nil, List.nil_append] at hperm
  refine ⟨(runPasses ((sortByDepLen pairs).length + 1) [] [] (sortByDepLen pairs)).2.1.map
    Prod.fst, ?_, ?_⟩
  · simp only [resolveScope]
    simp [hcomplete]
  · exact (hperm.trans hsortperm).map Prod.fst

/-- C7 (amended): every failure of the per-scope dependency fixpoint — it
fails exactly by stalling with items left — is a `ValueError` whose message
contains `Crossed dependencies`, and in particular the mutually recursive
`A`/`B` input fails that way through the whole parse; and when every
remaining dependency of a scope's subcircuit names a subcircuit of the same
scope and a rank function witnesses acyclicity, the pass terminates with all
of them emitted.  (As the claim originally stated it — success whenever the
scope is cycle-free — it is refuted by `claim_C7_counterexample`: a
dependency satisfied only by an enclosing scope also stalls the loop.) -/
theorem claim_C7 :
    (∀ (pairs : List SortItem) (e : PyExc), resolveScope pairs = .error e →
       ∃ m, e = .valueError m ∧ strHasSub m "Crossed dependencies" = true) ∧
    (∀ (pairs : List SortItem) (rank : String → Nat),
       (∀ it ∈ pairs, ∀ d ∈ it.2, d ∈ itemNames pairs) →
       (∀ it ∈ pairs, ∀ d ∈ it.2, rank d < rank (pyLower it.1.name)) →
       ∃ l, resolveScope pairs = .ok l ∧ l.Perm (pairs.map Prod.fst)) ∧
    spiceParserInit "/cwd" (some "f.cir") (.ok cycleCST) false =
      .error (.parseError "f.cir: Crossed dependencies (A, B)") ∧
    strHasSub "f.cir: Crossed dependencies (A, B)" "Crossed dependencies" = true :=
  ⟨resolveScope_error, resolveScope_complete, rfl, rfl⟩

/-- Counterexample to C7 as stated: in `inheritedDepCST` the scope `S` holds
a single subcircuit `B` whose only dependency is the name `x`, defined in
the enclosing (root) scope — there is no cycle among `S`'s subcircuits, `B`
does not even depend on itself — yet the parse fails with the
`Crossed dependencies` error. -/
theorem claim_C7_counterexample :
    spiceParserInit "/cwd" (some "f.cir") (.ok inheritedDepCST) false =
      .error (.parseError "f.cir: Crossed dependencies (B)") ∧
    (walkModel "f.cir" inheritedDepCST).map
        (fun c => c.subcircuits.map SubIR.name) = .ok ["X", "S"] ∧
    (walkModel "f.cir" inheritedDepCST).map
        (fun c => c.subcircuits.map (fun s => s.subcircuits.map scDeps)) =
      .ok [[], [["x"]]] :=
  ⟨rfl, rfl, rfl⟩

/-- Witness for C7: the error branch applied to the concrete `A`/`B` cycle
worklist, and the success branch applied to the concrete acyclic worklist. -/
theorem claim_C7_witness :
    (∃ m, PyExc.valueError "Crossed dependencies (A, B)" = .valueError m ∧
       strHasSub m "Crossed dependencies" = true) ∧
    (∃ l, resolveScope c7ChainPairs = .ok l ∧ l.Perm (c7ChainPairs.map Prod.fst)) := by
  constructor
  · exact claim_C7.1 c7CycPairs _ rfl
  · refine claim_C7.2.1 c7ChainPairs c7Rank ?_ ?_
    · intro it hit d hd
      cases hit with
      | head => cases hd
      | tail _ h2 =>
        cases h2 with
        | head =>
          cases hd with
          | head => decide
          | tail _ h3 => cases h3
        | tail _ h3 => cases h3
    · intro it hit d hd
      cases hit with
      | head => cases hd
      | tail _ h2 =>
        cases h2 with
        | head =>
          cases hd with
          | head => decide
          | tail _ h3 => cases h3
        | tail _ h3 => cases h3

mutual

theorem checkModelsSub_iff (avail : List String) (c : SubIR) :
    checkModelsSub avail c = .ok () ↔
      ∀ p ∈ scopesWithSub avail c, ∀ r ∈ p.2.reqMod, r ∈ p.1 := by
  cases c with
  | mk nm nd dp st subckts models ps rs rm =>
    rw [checkModelsSub, scopesWithSub]
    simp only [List.mem_cons]
    cases hcl : checkModelsList
        (setUnion (lowerList avail) (models.map (fun m => pyLower m.name))) subckts with
    | error e =>
      simp only [hcl, Bind.bind, Except.bind]
      constructor
      · intro h
        simp at h
      · intro h
        exfalso
        have hiff := (checkModelsList_iff
          (setUnion (lowerList avail) (models.map (fun m => pyLower m.name))) subckts).mpr
          (fun p hp => h p (Or.inr hp))
        rw [hcl] at hiff
        simp at hiff
    | ok u =>
      cases u
      simp only [hcl, Bind.bind, Except.bind]
      cases hf : rm.find? (fun r =>
          decide (r ∉ setUnion (lowerList avail) (models.map (fun m => pyLower m.name)))) with
      | some r0 =>
        simp only [hf]
        constructor
        · intro h
          simp at h
        · intro h
          exfalso
          have hr0 := List.find?_some hf
          have hmem := List.mem_of_find?_eq_some hf
          have h2 := h _ (Or.inl rfl) r0 (by simpa [SubIR.reqMod] using hmem)
          simp only [decide_eq_true_eq] at hr0
          exact hr0 h2
      | none =>
        simp only [hf]
        constructor
        · intro _ p hp
          rcases hp with rfl | hp2
          · intro r hr
            simp only [SubIR.reqMod] at hr
            have := List.find?_eq_none.mp hf r hr
            simpa using this
          · exact (checkModelsList_iff _ subckts).mp hcl p hp2
        · intro _
          trivial

theorem checkModelsList_iff (avail : List String) (cs : List SubIR) :
    checkModelsList avail cs = .ok () ↔
      ∀ p ∈ scopesWithList avail cs, ∀ r ∈ p.2.reqMod, r ∈ p.1 := by
  cases cs with
  | nil =>
    rw [checkModelsList, scopesWithList]
    simp
  | cons c rest =>
    rw [checkModelsList, scopesWithList]
    cases hc : checkModelsSub avail c with
    | error e =>
      simp only [hc, Bind.bind, Except.bind]
      constructor
      · intro h
        simp at h
      · intro h
        exfalso
        have hiff := (checkModelsSub_iff avail c).mpr
          (fun p hp => h p (List.mem_append.mpr (Or.inl hp)))
        rw [hc] at hiff
        simp at hiff
    | ok u =>
      cases u
      simp only [hc, Bind.bind, Except.bind]
      rw [checkModelsList_iff avail rest]
      constructor
      · intro h p hp
        rcases List.mem_append.mp hp with hp1 | hp2
        · exact (checkModelsSub_iff avail c).mp hc p hp1
        · exact h p hp2
      · intro h p hp
        exact h p (List.mem_append.mpr (Or.inr hp))

end

mutual

theorem checkModelsSub_error (avail : List String) (c : SubIR) (e : PyExc)
    (h : checkModelsSub avail c = .error e) :
    ∃ mn sn, e = .valueError ("Model (" ++ mn ++ ") not available in (" ++ sn ++ ")") := by
  cases c with
  | mk nm nd dp st subckts models ps rs rm =>
    rw [checkModelsSub] at h
    cases hcl : checkModelsList
        (setUnion (lowerList avail) (models.map (fun m => pyLower m.name))) subckts with
    | error e' =>
      rw [hcl] at h
      simp only [Bind.bind, Except.bind, Except.error.injEq] at h
      subst h
      exact checkModelsList_error _ subckts _ hcl
    | ok u =>
      cases u
      rw [hcl] at h
      simp only [Bind.bind, Except.bind] at h
      cases hf : rm.find? (fun r =>
          decide (r ∉ setUnion (lowerList avail) (models.map (fun m => pyLower m.name)))) with
      | some r0 =>
        rw [hf] at h
        simp only [Except.error.injEq] at h
        exact ⟨r0, nm, h.symm⟩
      | none =>
        rw [hf] at h
        simp at h

theorem checkModelsList_error (avail : List String) (cs : List SubIR) (e : PyExc)
    (h : checkModelsList avail cs = .error e) :
    ∃ mn sn, e = .valueError ("Model (" ++ mn ++ ") not available in (" ++ sn ++ ")") := by
  cases cs with
  | nil =>
    rw [checkModelsList] at h
    simp at h
  | cons c rest =>
    rw [checkModelsList] at h
    cases hc : checkModelsSub avail c with
    | error e' =>
      rw [hc] at h
      simp only [Bind.bind, Except.bind, Except.error.injEq] at h
      subst h
      exact checkModelsSub_error avail c _ hc
    | ok u =>
      cases u
      rw [hc] at h
      simp only [Bind.bind, Except.bind] at h
      exact checkModelsList_error avail rest e h

end

theorem checkModelsRoot_iff (c : CircuitIR) :
    checkModelsRoot c = .ok () ↔
      ((∀ r ∈ c.reqMod, r ∈ setUnion [] (c.models.map (fun m => pyLower m.name))) ∧
        ∀ p ∈ scopesWithRoot c, ∀ r ∈ p.2.reqMod, r ∈ p.1) := by
  rw [checkModelsRoot, scopesWithRoot]
  cases hcl : checkModelsList (setUnion [] (c.models.map (fun m => pyLower m.name)))
      c.subcircuits with
  | error e =>
    simp only [hcl, Bind.bind, Except.bind]
    constructor
    · intro h
      simp at h
    · intro h
      exfalso
      have hiff := (checkModelsList_iff _ c.subcircuits).mpr h.2
      rw [hcl] at hiff
      simp at hiff
  | ok u =>
    cases u
    simp only [hcl, Bind.bind, Except.bind]
    cases hf : c.reqMod.find? (fun r =>
        decide (r ∉ setUnion [] (c.models.map (fun m => pyLower m.name)))) with
    | some r0 =>
      simp only [hf]
      constructor
      · intro h
        simp at h
      · intro h
        exfalso
        have hr0 := List.find?_some hf
        have hmem := List.mem_of_find?_eq_some hf
        simp only [decide_eq_true_eq] at hr0
        exact hr0 (h.1 r0 hmem)
    | none =>
      simp only [hf]
      constructor
      · intro _
        refine ⟨?_, (checkModelsList_iff _ c.subcircuits).mp hcl⟩
        intro r hr
        have := List.find?_eq_none.mp hf r hr
        simpa using this
      · intro _
        trivial

theorem checkModelsRoot_error (c : CircuitIR) (e : PyExc)
    (h : checkModelsRoot c = .error e) :
    ∃ mn sn, e = .valueError ("Model (" ++ mn ++ ") not available in (" ++ sn ++ ")") := by
  rw [checkModelsRoot] at h
  cases hcl : checkModelsList (setUnion [] (c.models.map (fun m => pyLower m.name)))
      c.subcircuits with
  | error e' =>
    rw [hcl] at h
    simp only [Bind.bind, Except.bind, Except.error.injEq] at h
    subst h
    exact checkModelsList_error _ c.subcircuits _ hcl
  | ok u =>
    cases u
    rw [hcl] at h
    simp only [Bind.bind, Except.bind] at h
    cases hf : c.reqMod.find? (fun r =>
        decide (r ∉ setUnion [] (c.models.map (fun m => pyLower m.name)))) with
    | some r0 =>
      rw [hf] at h
      simp only [Except.error.injEq] at h
      exact ⟨r0, c.name, h.symm⟩
    | none =>
      rw [hf] at h
      simp at h

/-- C3 (amended): the model-check pass accepts exactly when, for every scope,
each name in `required_models` lies in the accumulated set of that scope's
lowercased model names plus those inherited from enclosing scopes; every
failure is a `ValueError` whose message reads `Model (X) not available in
(Y)` — with parentheses around the names, so for `M1 d g s b UNKMOD` with no
matching `.model` the surfaced `ParseError` message contains
`Model (unkmod) not available` (and not the unparenthesized form the claim
stated, refuted by `claim_C3_counterexample`). -/
theorem claim_C3 :
    (∀ c : CircuitIR, checkModelsRoot c = .ok () ↔
      ((∀ r ∈ c.reqMod, r ∈ setUnion [] (c.models.map (fun m => pyLower m.name))) ∧
        ∀ p ∈ scopesWithRoot c, ∀ r ∈ p.2.reqMod, r ∈ p.1)) ∧
    (∀ (c : CircuitIR) (e : PyExc), checkModelsRoot c = .error e →
      ∃ mn sn, e = .valueError ("Model (" ++ mn ++ ") not available in (" ++ sn ++ ")")) ∧
    spiceParserInit "/cwd" (some "f.cir") (.ok unkmodCST) false =
      .error (.parseError "f.cir: Model (unkmod) not available in (t)") ∧
    strHasSub "f.cir: Model (unkmod) not available in (t)" "Model (unkmod) not available" =
      true :=
  ⟨checkModelsRoot_iff, checkModelsRoot_error, rfl, rfl⟩

/-- Counterexample to C3 as stated: the message produced for the missing
model `unkmod` is `Model (unkmod) not available in (t)`, which does not
contain the claimed substring `Model unkmod not available`. -/
theorem claim_C3_counterexample :
    spiceParserInit "/cwd" (some "f.cir") (.ok unkmodCST) false =
      .error (.parseError "f.cir: Model (unkmod) not available in (t)") ∧
    strHasSub "f.cir: Model (unkmod) not available in (t)" "Model unkmod not available" =
      false :=
  ⟨rfl, rfl⟩

/-- Witness for C3: the characterization applied to the circuit walked from
`unkmodCST` (which fails the check) and to an empty circuit (which passes). -/
theorem claim_C3_witness :
    (∃ mn sn, PyExc.valueError "Model (unkmod) not available in (t)" =
      .valueError ("Model (" ++ mn ++ ") not available in (" ++ sn ++ ")")) ∧
    ((∀ r ∈ (CircuitIR.init "t" "f.cir").reqMod,
        r ∈ setUnion [] ((CircuitIR.init "t" "f.cir").models.map (fun m => pyLower m.name))) ∧
      ∀ p ∈ scopesWithRoot (CircuitIR.init "t" "f.cir"), ∀ r ∈ p.2.reqMod, r ∈ p.1) := by
  constructor
  · exact claim_C3.2.1
      ((walkModel "f.cir" unkmodCST).toOption.getD (CircuitIR.init "" "")) _ rfl
  · exact (claim_C3.1 (CircuitIR.init "t" "f.cir")).mp rfl

/-- C4 (amended): a grammar-parse failure is wrapped into `ParseError`
(prefixed with the source path when one was given), and so are failures of
the model-check and subcircuit-sort resolution passes; but an exception
raised inside the semantic walker — a device-shape `ValueError`, a
name-mismatch `NameError` — propagates out of the constructor with its
original type, unwrapped.  (The claim as stated — a single surfaced
`ParseError` type for every failure — is refuted by
`claim_C4_counterexample`.) -/
theorem claim_C4 :
    (∀ (cwd p : String) (e : PyExc) (lib : Bool),
      spiceParserInit cwd (some p) (.error e) lib =
        .error (.parseError (p ++ ": " ++ e.msg))) ∧
    (∀ (cwd : String) (e : PyExc) (lib : Bool),
      spiceParserInit cwd none (.error e) lib = .error (.parseError e.msg)) ∧
    (∀ (cwd : String) (path : Option String) (cst : CST) (lib : Bool) (e : PyExc),
      walkModel (path.getD cwd) cst = .error e →
        spiceParserInit cwd path (.ok cst) lib = .error e) ∧
    (∀ (cwd : String) (path : Option String) (cst : CST) (lib : Bool)
        (circuit : CircuitIR) (e : PyExc),
      walkModel (path.getD cwd) cst = .ok circuit →
      checkModelsRoot (if lib then promoteLibrary circuit else circuit) = .error e →
        spiceParserInit cwd path (.ok cst) lib =
          .error (.parseError ((path.getD cwd) ++ ": " ++ e.msg))) ∧
    (∀ (cwd : String) (path : Option String) (cst : CST) (lib : Bool)
        (circuit : CircuitIR) (e : PyExc),
      walkModel (path.getD cwd) cst = .ok circuit →
      checkModelsRoot (if lib then promoteLibrary circuit else circuit) = .ok () →
      sortRoot (if lib then promoteLibrary circuit else circuit) = .error e →
        spiceParserInit cwd path (.ok cst) lib =
          .error (.parseError ((path.getD cwd) ++ ": " ++ e.msg))) := by
  refine ⟨fun cwd p e lib => rfl, fun cwd e lib => rfl, ?_, ?_, ?_⟩
  · intro cwd path cst lib e hw
    unfold spiceParserInit
    simp only [hw]
  · intro cwd path cst lib circuit e hw hc
    unfold spiceParserInit
    simp only [hw, hc]
  · intro cwd path cst lib circuit e hw hc hs
    unfold spiceParserInit
    simp only [hw, hc, hs]

/-- Counterexample to C4 as stated: a device-shape `ValueError` and a
name-mismatch `NameError` raised in the walker surface from the constructor
with those very types, not as `ParseError`. -/
theorem claim_C4_counterexample :
    spiceParserInit "/cwd" (some "f.cir") (.ok bjtNoModelCST) false =
      .error (.valueError "The device Q1 has no model") ∧
    (PyExc.valueError "The device Q1 has no model").isParseError = false ∧
    spiceParserInit "/cwd" (some "f.cir") (.ok mismatchCST) false =
      .error (.nameError "Begin and end library entries differ: A != B") ∧
    (PyExc.nameError "Begin and end library entries differ: A != B").isParseError = false :=
  ⟨rfl, rfl, rfl, rfl⟩

/-- Witness for C4: the walker-propagation branch applied to the no-model
BJT input, and the resolution-wrapping branch applied to the missing-model
input. -/
theorem claim_C4_witness :
    spiceParserInit "/cwd" (some "f.cir") (.ok bjtNoModelCST) false =
      .error (.valueError "The device Q1 has no model") ∧
    spiceParserInit "/cwd" (some "f.cir") (.ok unkmodCST) false =
      .error (.parseError ("f.cir" ++ ": " ++
        (PyExc.valueError "Model (unkmod) not available in (t)").msg)) := by
  constructor
  · exact claim_C4.2.2.1 "/cwd" (some "f.cir") bjtNoModelCST false _ rfl
  · exact claim_C4.2.2.2.1 "/cwd" (some "f.cir") unkmodCST false
      ((walkModel "f.cir" unkmodCST).toOption.getD (CircuitIR.init "" "")) _ rfl rfl

/-- C2 (code bug): positional disambiguation without the keyword works as
claimed for two trailing arguments — `Q1 c b e 2N2222 1.5` coerces the
trailing token and emits `area` — but the `area=` keyword never wins: with
one trailing argument the walked keyword value is dropped (no `area` in the
element's parameters), and with two trailing arguments the walker dies
reading the unbound `model_name` local instead of accepting the element;
moreover the three-argument `thermal model area` shape is rejected with the
incompatible-device `ValueError` even when the trailing token coerces. -/
theorem claim_C2 :
    (∃ s', walkBJT wState0 bjtAreaKw1 = .ok s' ∧
      s'.root.statements = [.elem (ElementStatement.ofName .BipolarJunctionTransistor "Q1"
        ["c", "b", "e"] [("model", .str "2N2222")])] ∧
      dictGet "area" (ElementStatement.ofName .BipolarJunctionTransistor "Q1"
        ["c", "b", "e"] [("model", .str "2N2222")]).params = none) ∧
    walkBJT wState0 bjtAreaKw2 =
      .error (.unboundLocal "local variable model_name referenced before assignment") ∧
    (∃ s', walkBJT wState0 { bjtAreaKw2 with area := none } = .ok s' ∧
      s'.root.statements = [.elem (ElementStatement.ofName .BipolarJunctionTransistor "Q1"
        ["c", "b", "e"] [("area", .dec 15 (-1)), ("model", .str "2N2222")])]) ∧
    walkBJT wState0 { bjtAreaKw2 with area := none, args := ["th", "2N2222", "1.5"] } =
      .error (.valueError "Present device not compatible with BJT definition: Q1") :=
  ⟨⟨_, rfl, rfl, rfl⟩, rfl, ⟨_, rfl, rfl⟩, rfl⟩

theorem walkDevice_efgh (s : String) (h : startsWithEFGH s = true) :
    walkDevice s = "B" ++ s := by
  rw [walkDevice, startsWithEFGH] at *
  cases hs : s.toList with
  | nil => rw [hs] at h; simp at h
  | cons c rest =>
    rw [hs] at h
    simp only [decide_eq_true_eq, Bool.or_eq_true] at h
    simp [h]

theorem ofName_pfx_B (statement : DeviceClass) (dev : String)
    (h : startsWithEFGH dev = true) (nodes : List String)
    (params : List (String × Value)) :
    (ElementStatement.ofName statement (walkDevice dev) nodes params).pfx = "B" := by
  rw [walkDevice_efgh dev h]
  simp only [ElementStatement.ofName]
  have hB : ("B" ++ dev).toList = 'B' :: dev.toList := by
    simp [String.toList, String.data_append]
  rw [hB]
  rfl

/-- C5: for every accepted controlled-source element line (E/F/G/H), the
emitted IR element has device class `BehavioralSource`, its instance name is
rewritten to start with `B`, and exactly one of the behavioral expression
parameters is populated — the voltage expression for E (VCVS) and H (CCVS),
the current expression for G (VCCS) and F (CCCS). -/
theorem claim_C5 :
    (∀ (s : WState) (n : VCNode) (s' : WState), startsWithEFGH n.dev = true →
      walkVCVS s n = .ok s' →
        ∃ e, s' = s.appendStmt (.elem e) ∧ e.statement = .BehavioralSource ∧
          e.pfx = "B" ∧ (∃ v, voltageExpression e = some v) ∧ currentExpression e = none) ∧
    (∀ (s : WState) (n : VCNode) (s' : WState), startsWithEFGH n.dev = true →
      walkVCCS s n = .ok s' →
        ∃ e, s' = s.appendStmt (.elem e) ∧ e.statement = .BehavioralSource ∧
          e.pfx = "B" ∧ (∃ v, currentExpression e = some v) ∧ voltageExpression e = none) ∧
    (∀ (s : WState) (n : CCNode) (s' : WState), startsWithEFGH n.dev = true →
      walkCCCS s n = .ok s' →
        ∃ e, s' = s.appendStmt (.elem e) ∧ e.statement = .BehavioralSource ∧
          e.pfx = "B" ∧ (∃ v, currentExpression e = some v) ∧ voltageExpression e = none) ∧
    (∀ (s : WState) (n : CCNode) (s' : WState), startsWithEFGH n.dev = true →
      walkCCVS s n = .ok s' →
        ∃ e, s' = s.appendStmt (.elem e) ∧ e.statement = .BehavioralSource ∧
          e.pfx = "B" ∧ (∃ v, voltageExpression e = some v) ∧ currentExpression e = none) := by
  refine ⟨?_, ?_, ?_, ?_⟩
  · intro s n s' hdev h
    rw [walkVCVS] at h
    by_cases hguard : (n.controller = none ∧ n.controlPositive = none ∧
        n.controlNegative = none ∧ n.gain = none)
    · rw [if_pos hguard] at h
      simp at h
    · rw [if_neg hguard] at h
      cases hctrl : n.controller with
      | some c =>
        rw [hctrl] at h
        simp only [Bind.bind, Except.bind, Except.ok.injEq] at h
        exact ⟨_, h.symm, rfl, ofName_pfx_B _ _ hdev _ _, ⟨c, rfl⟩, rfl⟩
      | none =>
        rw [hctrl] at h
        cases hgain : n.gain with
        | some v =>
          rw [hgain] at h
          simp only [Bind.bind, Except.bind, Except.ok.injEq] at h
          exact ⟨_, h.symm, rfl, ofName_pfx_B _ _ hdev _ _, ⟨_, rfl⟩, rfl⟩
        | none =>
          rw [hgain] at h
          simp [Bind.bind, Except.bind] at h
  · intro s n s' hdev h
    rw [walkVCCS] at h
    by_cases hguard : (n.controller = none ∧ n.controlPositive = none ∧
        n.controlNegative = none ∧ n.gain = none)
    · rw [if_pos hguard] at h
      simp at h
    · rw [if_neg hguard] at h
      cases hctrl : n.controller with
      | some c =>
        rw [hctrl] at h
        simp only [Bind.bind, Except.bind, Except.ok.injEq] at h
        exact ⟨_, h.symm, rfl, ofName_pfx_B _ _ hdev _ _, ⟨c, rfl⟩, rfl⟩
      | none =>
        rw [hctrl] at h
        cases hgain : n.gain with
        | some v =>
          rw [hgain] at h
          simp only [Bind.bind, Except.bind, Except.ok.injEq] at h
          exact ⟨_, h.symm, rfl, ofName_pfx_B _ _ hdev _ _, ⟨_, rfl⟩, rfl⟩
        | none =>
          rw [hgain] at h
          simp [Bind.bind, Except.bind] at h
  · intro s n s' hdev h
    rw [walkCCCS] at h
    cases hctrl : n.controller with
    | some c =>
      rw [hctrl] at h
      simp only [Bind.bind, Except.bind, Except.ok.injEq] at h
      exact ⟨_, h.symm, rfl, ofName_pfx_B _ _ hdev _ _, ⟨c, rfl⟩, rfl⟩
    | none =>
      rw [hctrl] at h
      cases hgain : n.gain with
      | some v =>
        rw [hgain] at h
        simp only [Bind.bind, Except.bind, Except.ok.injEq] at h
        exact ⟨_, h.symm, rfl, ofName_pfx_B _ _ hdev _ _, ⟨_, rfl⟩, rfl⟩
      | none =>
        rw [hgain] at h
        simp [Bind.bind, Except.bind] at h
  · intro s n s' hdev h
    rw [walkCCVS] at h
    cases hctrl : n.controller with
    | some c =>
      rw [hctrl] at h
      simp only [Bind.bind, Except.bind, Except.ok.injEq] at h
      exact ⟨_, h.symm, rfl, ofName_pfx_B _ _ hdev _ _, ⟨c, rfl⟩, rfl⟩
    | none =>
      rw [hctrl] at h
      cases hgain : n.gain with
      | some v =>
        rw [hgain] at h
        simp only [Bind.bind, Except.bind, Except.ok.injEq] at h
        exact ⟨_, h.symm, rfl, ofName_pfx_B _ _ hdev _ _, ⟨_, rfl⟩, rfl⟩
      | none =>
        rw [hgain] at h
        simp [Bind.bind, Except.bind] at h

/-- Witness for C5: the four branches applied to concrete `E1`/`G1`/`F1`/`H1`
lines. -/
theorem claim_C5_witness :
    (∃ e, vcvsResult = wState0.appendStmt (.elem e) ∧ e.statement = .BehavioralSource ∧
      e.pfx = "B" ∧ (∃ v, voltageExpression e = some v) ∧ currentExpression e = none) ∧
    (∃ e, vccsResult = wState0.appendStmt (.elem e) ∧ e.statement = .BehavioralSource ∧
      e.pfx = "B" ∧ (∃ v, currentExpression e = some v) ∧ voltageExpression e = none) ∧
    (∃ e, cccsResult = wState0.appendStmt (.elem e) ∧ e.statement = .BehavioralSource ∧
      e.pfx = "B" ∧ (∃ v, currentExpression e = some v) ∧ voltageExpression e = none) ∧
    (∃ e, ccvsResult = wState0.appendStmt (.elem e) ∧ e.statement = .BehavioralSource ∧
      e.pfx = "B" ∧ (∃ v, voltageExpression e = some v) ∧ currentExpression e = none) :=
  ⟨claim_C5.1 wState0 vcvsNodeEx vcvsResult rfl rfl,
   claim_C5.2.1 wState0 vccsNodeEx vccsResult rfl rfl,
   claim_C5.2.2.1 wState0 cccsNodeEx cccsResult rfl rfl,
   claim_C5.2.2.2 wState0 ccvsNodeEx ccvsResult rfl rfl⟩

/-- C8: a switch element with exactly one control node specified is fatal to
the parse (the positive-only shape raises the `ValueError`, the
negative-only shape dies on the unbound `nodes` local), while both control
nodes yield an accepted element with the four-node list and neither yields
the two-node list. -/
theorem claim_C8 :
    (∀ (s : WState) (n : SwitchNode) (cp : String),
      n.controlP = some cp → n.controlN = none → ∃ e, walkSwitch s n = .error e) ∧
    (∀ (s : WState) (n : SwitchNode) (cn : String),
      n.controlP = none → n.controlN = some cn → ∃ e, walkSwitch s n = .error e) ∧
    (∀ (s : WState) (n : SwitchNode) (cp cn : String) (s' : WState),
      n.controlP = some cp → n.controlN = some cn → walkSwitch s n = .ok s' →
      ∃ (s2 : WState) (e : ElementStatement),
        s' = s2.appendStmt (.elem e) ∧ e.statement = .VoltageControlledSwitch ∧
        e.nodes = [n.positive, n.negative, cp, cn]) ∧
    (∀ (s : WState) (n : SwitchNode) (s' : WState),
      n.controlP = none → n.controlN = none → walkSwitch s n = .ok s' →
      ∃ (s2 : WState) (e : ElementStatement),
        s' = s2.appendStmt (.elem e) ∧ e.statement = .VoltageControlledSwitch ∧
        e.nodes = [n.positive, n.negative]) := by
  refine ⟨?_, ?_, ?_, ?_⟩
  · intro s n cp hcp hcn
    rw [walkSwitch]
    simp only [Bind.bind, Except.bind]
    cases hm : n.model with
    | none =>
      simp only [hcp, hcn]
      exact ⟨_, rfl⟩
    | some m =>
      dsimp only
      cases ha : s.addReqMod (pyLower m) with
      | error e => exact ⟨e, rfl⟩
      | ok s2 =>
        simp only [hcp, hcn]
        exact ⟨_, rfl⟩
  · intro s n cn hcp hcn
    rw [walkSwitch]
    simp only [Bind.bind, Except.bind]
    cases hm : n.model with
    | none =>
      simp only [hcp, hcn]
      exact ⟨_, rfl⟩
    | some m =>
      dsimp only
      cases ha : s.addReqMod (pyLower m) with
      | error e => exact ⟨e, rfl⟩
      | ok s2 =>
        simp only [hcp, hcn]
        exact ⟨_, rfl⟩
  · intro s n cp cn s' hcp hcn h
    rw [walkSwitch] at h
    simp only [Bind.bind, Except.bind] at h
    cases hm : n.model with
    | none =>
      rw [hm] at h
      simp only [hcp, hcn, Except.ok.injEq] at h
      exact ⟨s, _, h.symm, rfl, rfl⟩
    | some m =>
      rw [hm] at h
      dsimp only at h
      cases ha : s.addReqMod (pyLower m) with
      | error e =>
        rw [ha] at h
        simp [Bind.bind, Except.bind] at h
      | ok s2 =>
        rw [ha] at h
        simp only [Bind.bind, Except.bind, hcp, hcn, Except.ok.injEq] at h
        exact ⟨s2, _, h.symm, rfl, rfl⟩
  · intro s n s' hcp hcn h
    rw [walkSwitch] at h
    simp only [Bind.bind, Except.bind] at h
    cases hm : n.model with
    | none =>
      rw [hm] at h
      simp only [hcp, hcn, Except.ok.injEq] at h
      exact ⟨s, _, h.symm, rfl, rfl⟩
    | some m =>
      rw [hm] at h
      dsimp only at h
      cases ha : s.addReqMod (pyLower m) with
      | error e =>
        rw [ha] at h
        simp [Bind.bind, Except.bind] at h
      | ok s2 =>
        rw [ha] at h
        simp only [Bind.bind, Except.bind, hcp, hcn, Except.ok.injEq] at h
        exact ⟨s2, _, h.symm, rfl, rfl⟩

/-- Witness for C8: the four branches applied to concrete switch lines. -/
theorem claim_C8_witness :
    (∃ e, walkSwitch wState0 { swBothNode with controlN := none } = .error e) ∧
    (∃ e, walkSwitch wState0 { swBothNode with controlP := none } = .error e) ∧
    (∃ (s2 : WState) (e : ElementStatement),
      swBothResult = s2.appendStmt (.elem e) ∧ e.statement = .VoltageControlledSwitch ∧
      e.nodes = [swBothNode.positive, swBothNode.negative, "cp", "cn"]) ∧
    (∃ (s2 : WState) (e : ElementStatement),
      swNoneResult = s2.appendStmt (.elem e) ∧ e.statement = .VoltageControlledSwitch ∧
      e.nodes = [swNoneNode.positive, swNoneNode.negative]) :=
  ⟨claim_C8.1 wState0 { swBothNode with controlN := none } "cp" rfl rfl,
   claim_C8.2.1 wState0 { swBothNode with controlP := none } "cn" rfl rfl,
   claim_C8.2.2.1 wState0 swBothNode "cp" "cn" swBothResult rfl rfl rfl,
   claim_C8.2.2.2 wState0 swNoneNode swNoneResult rfl rfl rfl⟩

/-- C6 (code bug): `ElementStatement.build` accepts and ignores the ground
argument, so during `CircuitStatement.build` every node token — including
one equal to the caller-supplied ground name — reaches the sink unchanged:
building `R1 gnd out 1k` with ground `gnd` keeps the literal node `gnd`
instead of the integer 0; and the class's `translate_ground_node`, the only
code meant to do the rewrite, is never called on the build path and itself
raises `AttributeError` on any matching node. -/
theorem claim_C6 :
    (∀ (e : ElementStatement) (g : String), (elementBuild e g).nodes = e.nodes) ∧
    (buildCircuit rGndCircuit "gnd").map BuiltCircuit.elements =
      .ok [{ cls := .Resistor, name := "1", nodes := ["gnd", "out"],
             params := [("resistance", .int 1000)] }] ∧
    translateGroundNode rGndElem "gnd" =
      .error (.attributeError "ElementStatement object has no attribute _node") :=
  ⟨fun _ _ => rfl, rfl, rfl⟩

/-- C9: the root `CircuitStatement` is always truthy (it defines neither
`__bool__` nor `__len__`), and both library predicates conjoin its negation,
so `is_only_subcircuit()` and `is_only_model()` return `False` on every
parser — including a parse containing nothing but `.subckt` definitions and
one containing nothing but a `.model`. -/
theorem claim_C9 :
    (∀ c : CircuitIR, isOnlySubcircuit c = false ∧ isOnlyModel c = false) ∧
    isOnlySubcircuit chainResult = false ∧
    (spiceParserInit "/cwd" (some "f.cir") (.ok modelOnlyCST) false).map isOnlyModel =
      .ok false := by
  refine ⟨?_, ?_, ?_⟩
  · intro c
    constructor
    · simp [isOnlySubcircuit, circuitTruthy]
    · simp [isOnlyModel, circuitTruthy]
  · simp [isOnlySubcircuit, circuitTruthy]
  · rfl

/-- C10: walking a `.data` directive, from whatever scope it lexically
appears in, leaves the current scope and every other root collection
untouched and records the table only in the root's data map keyed by the
table name; a later `.data` with the same table name replaces the entry. -/
theorem claim_C10 :
    ∀ (s : WState) (n : DataNode) (s' : WState), walkDataCmd s n = .ok s' →
      s'.present = s.present ∧
      s'.root.statements = s.root.statements ∧
      s'.root.subcircuits = s.root.subcircuits ∧
      s'.root.models = s.root.models ∧
      s'.root.params = s.root.params ∧
      s'.root.libraries = s.root.libraries ∧
      s'.root.data = dictSet n.table (dataStatementOf n) s.root.data ∧
      dictGet n.table s'.root.data = some (dataStatementOf n) ∧
      (∀ k, k ≠ n.table → dictGet k s'.root.data = dictGet k s.root.data) ∧
      (∀ (n₂ : DataNode) (s'' : WState), n₂.table = n.table →
        walkDataCmd s' n₂ = .ok s'' →
        dictGet n.table s''.root.data = some (dataStatementOf n₂)) := by
  intro s n s' h
  rw [walkDataCmd] at h
  by_cases h1 : n.names.length = 0
  · rw [if_pos h1] at h
    simp at h
  · rw [if_neg h1] at h
    by_cases h2 : n.values.length % n.names.length ≠ 0
    · rw [if_pos h2] at h
      simp at h
    · rw [if_neg h2] at h
      simp only [Except.ok.injEq] at h
      subst h
      refine ⟨rfl, rfl, rfl, rfl, rfl, rfl, rfl, ?_, ?_, ?_⟩
      · exact dictGet_dictSet_self _ _ _
      · intro k hk
        exact dictGet_dictSet_ne _ _ _ _ hk
      · intro n₂ s'' htab h2'
        rw [walkDataCmd] at h2'
        by_cases h3 : n₂.names.length = 0
        · rw [if_pos h3] at h2'
          simp at h2'
        · rw [if_neg h3] at h2'
          by_cases h4 : n₂.values.length % n₂.names.length ≠ 0
          · rw [if_pos h4] at h2'
            simp at h2'
          · rw [if_neg h4] at h2'
            simp only [Except.ok.injEq] at h2'
            subst h2'
            rw [← htab]
            exact dictGet_dictSet_self _ _ _

/-- Witness for C10: a `.data` directive walked from inside an open
subcircuit scope, followed by a second directive with the same table name. -/
theorem claim_C10_witness :
    ∃ s' : WState, walkDataCmd wStateInSub dataNodeXY = .ok s' ∧
      s'.present = wStateInSub.present ∧
      s'.root.statements = wStateInSub.root.statements ∧
      dictGet "tab" s'.root.data = some (dataStatementOf dataNodeXY) ∧
      (∀ s'' : WState, walkDataCmd s' dataNodeXY2 = .ok s'' →
        dictGet "tab" s''.root.data = some (dataStatementOf dataNodeXY2)) := by
  refine ⟨(walkDataCmd wStateInSub dataNodeXY).toOption.getD wStateInSub, rfl, ?_⟩
  have h := claim_C10 wStateInSub dataNodeXY
    ((walkDataCmd wStateInSub dataNodeXY).toOption.getD wStateInSub) rfl
  exact ⟨h.1, h.2.1, h.2.2.2.2.2.2.2.1, fun s'' h2 =>
    h.2.2.2.2.2.2.2.2.2 dataNodeXY2 s'' rfl h2⟩
